import Mathlib

/-!
# OGLPlus program wrappers (oglplus/program.hpp)

A shallow embedding of the program-object wrappers of `oglplus/program.hpp`
over an abstract OpenGL driver.  The driver is a record of state transformers;
every wrapper is a function from a world (driver state plus the trace of the
driver calls made so far) to an outcome (normal return or raised error) and the
world it leaves behind.
-/

namespace oglplus

/-! ## Machine types and GL constants -/

/-- GL unsigned 32-bit integer; values are kept below `2^32` by the conversions. -/
abbrev GLuint := Nat
/-- GL signed 32-bit integer. -/
abbrev GLint := Int
/-- GL enumeration value. -/
abbrev GLenum := Nat
/-- GL signed size type (32-bit). -/
abbrev GLsizei := Int
/-- GL boolean (unsigned char). -/
abbrev GLboolean := Nat

/-- Value of `GL_NO_ERROR` in the OpenGL headers. -/
def GL_NO_ERROR : GLenum := 0
/-- Value of `GL_TRUE` in the OpenGL headers. -/
def GL_TRUE : GLint := 1
/-- Value of `GL_CURRENT_PROGRAM` in the OpenGL headers. -/
def GL_CURRENT_PROGRAM : GLenum := 0x8B8D
/-- Value of `GL_LINK_STATUS` in the OpenGL headers. -/
def GL_LINK_STATUS : GLenum := 0x8B82
/-- Value of `GL_VALIDATE_STATUS` in the OpenGL headers. -/
def GL_VALIDATE_STATUS : GLenum := 0x8B83

/-- Conversion `GLint -> GLuint` of C++: reduction modulo `2^32`. -/
def toGLuint (x : GLint) : GLuint := (x % (2 ^ 32 : Int)).toNat

/-- Two's complement reading of a 32-bit pattern as a `GLint`. -/
def toGLint (n : GLuint) : GLint :=
  if n % 2 ^ 32 < 2 ^ 31 then ((n % 2 ^ 32 : Nat) : Int) else ((n % 2 ^ 32 : Nat) : Int) - 2 ^ 32

/-! ## The driver -/

/-- The entry points of the OpenGL driver that `program.hpp` forwards to, as
transformers of an abstract driver state.  Output parameters (`GLint*`) are the
first component of the result. -/
structure Driver (σ : Type) where
  CreateProgram : σ → GLuint × σ
  DeleteProgram : GLuint → σ → σ
  IsProgram : GLuint → σ → GLboolean × σ
  GetIntegerv : GLenum → σ → GLint × σ
  UseProgram : GLuint → σ → σ
  GetProgramiv : GLuint → GLenum → σ → GLint × σ
  GetProgramStageiv : GLuint → GLenum → GLenum → σ → GLint × σ
  BindAttribLocation : GLuint → GLuint → String → σ → σ
  GetError : σ → GLenum × σ

/-- The driver functions named by the wrappers. -/
inductive GLFunc
  | CreateProgram
  | DeleteProgram
  | IsProgram
  | GetIntegerv
  | UseProgram
  | GetProgramiv
  | GetProgramStageiv
  | BindAttribLocation
  deriving DecidableEq

/-- One driver call, with its arguments and what it returned. -/
inductive GLCall
  | CreateProgram (ret : GLuint)
  | DeleteProgram (name : GLuint)
  | IsProgram (name : GLuint) (ret : GLboolean)
  | GetIntegerv (pname : GLenum) (out : GLint)
  | UseProgram (name : GLuint)
  | GetProgramiv (name : GLuint) (pname : GLenum) (out : GLint)
  | GetProgramStageiv (name : GLuint) (stage : GLenum) (pname : GLenum) (out : GLint)
  | BindAttribLocation (name : GLuint) (index : GLuint) (identifier : String)
  | GetError (ret : GLenum)
  deriving DecidableEq

/-- The driver state together with the trace of the driver calls made so far. -/
structure World (σ : Type) where
  drv : σ
  log : List GLCall

/-! ## Errors -/

/-- Modelled from the spec: the error classes of `oglplus/error/*.hpp`, which are
not part of the sources at hand. -/
inductive ErrorClass
  | Error
  | ObjectError
  | ProgVarError
  deriving DecidableEq

/-- Modelled from the spec: the contextual parameters an error object carries
(failing call name, object, enum parameter, program, identifier, index); the
classes holding them live in `oglplus/error/*.hpp`. -/
structure ErrorInfo where
  glFunc : Option GLFunc
  object : Option GLuint
  enumParam : Option GLenum
  program : Option GLuint
  identifier : Option String
  index : Option GLuint
  deriving DecidableEq

/-- Modelled from the spec: an error object is the native error code, its class
and the contextual parameters. -/
structure Error where
  cls : ErrorClass
  code : GLenum
  info : ErrorInfo
  deriving DecidableEq

/-- Error info without any contextual parameter. -/
def NoInfo : ErrorInfo := ⟨none, none, none, none, none, none⟩

/-- Setter of the failing call name. -/
def ErrorInfo.GLFunc (i : ErrorInfo) (f : GLFunc) : ErrorInfo :=
  ⟨some f, i.object, i.enumParam, i.program, i.identifier, i.index⟩

/-- Setter of the object parameter. -/
def ErrorInfo.Object (i : ErrorInfo) (name : GLuint) : ErrorInfo :=
  ⟨i.glFunc, some name, i.enumParam, i.program, i.identifier, i.index⟩

/-- Setter of the enum parameter. -/
def ErrorInfo.EnumParam (i : ErrorInfo) (e : GLenum) : ErrorInfo :=
  ⟨i.glFunc, i.object, some e, i.program, i.identifier, i.index⟩

/-- Setter of the program parameter. -/
def ErrorInfo.Program (i : ErrorInfo) (name : GLuint) : ErrorInfo :=
  ⟨i.glFunc, i.object, i.enumParam, some name, i.identifier, i.index⟩

/-- Setter of the identifier parameter. -/
def ErrorInfo.Identifier (i : ErrorInfo) (s : String) : ErrorInfo :=
  ⟨i.glFunc, i.object, i.enumParam, i.program, some s, i.index⟩

/-- Setter of the index parameter. -/
def ErrorInfo.Index (i : ErrorInfo) (n : GLuint) : ErrorInfo :=
  ⟨i.glFunc, i.object, i.enumParam, i.program, i.identifier, some n⟩

/-- Outcome of a wrapper: normal return or raised error, and the world left behind. -/
abbrev Outcome (σ α : Type) := Except Error α × World σ

/-- The outcome is a raised error. -/
def raised {α : Type} : Except Error α → Bool
  | Except.error _ => true
  | Except.ok _ => false

/-! ## Logged driver calls (`OGLPLUS_GLFUNC`) -/

section calls
variable {σ : Type}

/-- Appends one call to the trace and installs the new driver state. -/
def World.step (w : World σ) (s : σ) (c : GLCall) : World σ := ⟨s, w.log ++ [c]⟩

/-- Call of `glCreateProgram`. -/
def glCreateProgram (d : Driver σ) (w : World σ) : GLuint × World σ :=
  let r := d.CreateProgram w.drv
  (r.1, w.step r.2 (GLCall.CreateProgram r.1))

/-- Call of `glDeleteProgram`. -/
def glDeleteProgram (d : Driver σ) (name : GLuint) (w : World σ) : World σ :=
  w.step (d.DeleteProgram name w.drv) (GLCall.DeleteProgram name)

/-- Call of `glIsProgram`. -/
def glIsProgram (d : Driver σ) (name : GLuint) (w : World σ) : GLboolean × World σ :=
  let r := d.IsProgram name w.drv
  (r.1, w.step r.2 (GLCall.IsProgram name r.1))

/-- Call of `glGetIntegerv`. -/
def glGetIntegerv (d : Driver σ) (pname : GLenum) (w : World σ) : GLint × World σ :=
  let r := d.GetIntegerv pname w.drv
  (r.1, w.step r.2 (GLCall.GetIntegerv pname r.1))

/-- Call of `glUseProgram`. -/
def glUseProgram (d : Driver σ) (name : GLuint) (w : World σ) : World σ :=
  w.step (d.UseProgram name w.drv) (GLCall.UseProgram name)

/-- Call of `glGetProgramiv`. -/
def glGetProgramiv (d : Driver σ) (name : GLuint) (pname : GLenum) (w : World σ) :
    GLint × World σ :=
  let r := d.GetProgramiv name pname w.drv
  (r.1, w.step r.2 (GLCall.GetProgramiv name pname r.1))

/-- Call of `glGetProgramStageiv`. -/
def glGetProgramStageiv (d : Driver σ) (name : GLuint) (stage pname : GLenum) (w : World σ) :
    GLint × World σ :=
  let r := d.GetProgramStageiv name stage pname w.drv
  (r.1, w.step r.2 (GLCall.GetProgramStageiv name stage pname r.1))

/-- Call of `glBindAttribLocation`. -/
def glBindAttribLocation (d : Driver σ) (name index : GLuint) (identifier : String)
    (w : World σ) : World σ :=
  w.step (d.BindAttribLocation name index identifier w.drv)
    (GLCall.BindAttribLocation name index identifier)

/-- Call of `glGetError`: reads the driver's error state. -/
def glGetError (d : Driver σ) (w : World σ) : GLenum × World σ :=
  let r := d.GetError w.drv
  (r.1, w.step r.2 (GLCall.GetError r.1))

/-! ## Error checking macros -/

/-- Modelled from the spec: the macro `OGLPLUS_CHECK(GLFUNC, ERROR, ERROR_INFO)` of
`oglplus/error/basic.hpp` (not among the sources).  It reads the driver's error
state and raises an error of class `ERROR`, carrying the code, the name of the
failing call and `ERROR_INFO`, if the state is set. -/
def OGLPLUS_CHECK (d : Driver σ) (f : GLFunc) (cls : ErrorClass) (info : ErrorInfo)
    (w : World σ) : Outcome σ Unit :=
  let r := glGetError d w
  if r.1 = GL_NO_ERROR then (Except.ok (), r.2)
  else (Except.error ⟨cls, r.1, info.GLFunc f⟩, r.2)

/-- Modelled from the spec: the macro `OGLPLUS_VERIFY(GLFUNC, ERROR, ERROR_INFO)` of
`oglplus/error/basic.hpp` (not among the sources); by the spec every call is
checked, so it behaves as `OGLPLUS_CHECK`. -/
def OGLPLUS_VERIFY (d : Driver σ) (f : GLFunc) (cls : ErrorClass) (info : ErrorInfo)
    (w : World σ) : Outcome σ Unit :=
  OGLPLUS_CHECK d f cls info w

/-- Modelled from the spec: the macro `OGLPLUS_CHECK_SIMPLE(GLFUNC)`, a check raising
a plain `Error` without contextual parameters. -/
def OGLPLUS_CHECK_SIMPLE (d : Driver σ) (f : GLFunc) (w : World σ) : Outcome σ Unit :=
  OGLPLUS_CHECK d f ErrorClass.Error NoInfo w

/-- Modelled from the spec: the macro `OGLPLUS_VERIFY_SIMPLE(GLFUNC)`, a verification
raising a plain `Error` without contextual parameters. -/
def OGLPLUS_VERIFY_SIMPLE (d : Driver σ) (f : GLFunc) (w : World σ) : Outcome σ Unit :=
  OGLPLUS_VERIFY d f ErrorClass.Error NoInfo w

end calls

/-! ## Typed names -/

/-- Modelled from the spec: `ProgramName`, the typed handle (a numeric name under
the Program tag) declared in `oglplus/object/name.hpp`. -/
structure ProgramName where
  _name : GLuint
  deriving DecidableEq

/-- Numeric name of a typed handle. -/
def GetGLName (p : ProgramName) : GLuint := p._name

/-- Modelled from the spec: `VertexAttribSlot` of `oglplus/vertex_attrib_slot.hpp`,
a typed vertex attribute index; `GLuint(slot)` is its numeric value. -/
structure VertexAttribSlot where
  value : GLuint
  deriving DecidableEq

/-! ## `ObjGenDelOps<tag::Program>` -/

namespace ObjGenDelOps
variable {σ : Type}

/-- Body of the loop of `Gen`: `n` iterations remain and `i` is the loop index.  The
array `names` is the memory behind the pointer, indexed from the pointer on. -/
def Gen.loop (d : Driver σ) : Nat → Nat → (Nat → GLuint) → World σ →
    Except Error Unit × (Nat → GLuint) × World σ
  | 0, _, names, w => (Except.ok (), names, w)
  | n + 1, i, names, w =>
    let r := glCreateProgram d w
    let names1 := Function.update names i r.1
    match OGLPLUS_CHECK_SIMPLE d GLFunc.CreateProgram r.2 with
    | (Except.error e, w2) => (Except.error e, names1, w2)
    | (Except.ok _, w2) => Gen.loop d n (i + 1) names1 w2

/-- The function `Gen(count, names)`; `for(GLsizei i=0; i<count; ++i)` runs
`max(count, 0)` times.  The assertion `names != nullptr` is the caller's
obligation. -/
def Gen (d : Driver σ) (count : GLsizei) (names : Nat → GLuint) (w : World σ) :
    Except Error Unit × (Nat → GLuint) × World σ :=
  Gen.loop d count.toNat 0 names w

/-- Body of the loop of `Delete`: `n` iterations remain and `i` is the loop index. -/
def Delete.loop (d : Driver σ) : Nat → Nat → (Nat → GLuint) → World σ →
    Except Error Unit × (Nat → GLuint) × World σ
  | 0, _, names, w => (Except.ok (), names, w)
  | n + 1, i, names, w =>
    let w1 := glDeleteProgram d (names i) w
    match OGLPLUS_VERIFY_SIMPLE d GLFunc.DeleteProgram w1 with
    | (Except.error e, w2) => (Except.error e, names, w2)
    | (Except.ok _, w2) => Delete.loop d n (i + 1) names w2

/-- The function `Delete(count, names)`.  The assertion `names != nullptr` is the
caller's obligation. -/
def Delete (d : Driver σ) (count : GLsizei) (names : Nat → GLuint) (w : World σ) :
    Except Error Unit × (Nat → GLuint) × World σ :=
  Delete.loop d count.toNat 0 names w

/-- The function `IsA(name)`.  The assertion `name != 0` is the caller's obligation. -/
def IsA (d : Driver σ) (name : GLuint) (w : World σ) : Outcome σ GLboolean :=
  let r := glIsProgram d name w
  match OGLPLUS_VERIFY_SIMPLE d GLFunc.IsProgram r.2 with
  | (Except.error e, w2) => (Except.error e, w2)
  | (Except.ok _, w2) => (Except.ok r.1, w2)

end ObjGenDelOps

/-! ## `ObjBindingOps<tag::Program>` -/

namespace ObjBindingOps
variable {σ : Type}

/-- The function `_binding()`: the `GLint` written by the driver is returned as a
`GLuint`. -/
def _binding (d : Driver σ) (w : World σ) : Outcome σ GLuint :=
  let r := glGetIntegerv d GL_CURRENT_PROGRAM w
  match OGLPLUS_VERIFY d GLFunc.GetIntegerv ErrorClass.Error
      (NoInfo.EnumParam GL_CURRENT_PROGRAM) r.2 with
  | (Except.error e, w2) => (Except.error e, w2)
  | (Except.ok _, w2) => (Except.ok (toGLuint r.1), w2)

/-- The function `Binding()`. -/
def Binding (d : Driver σ) (w : World σ) : Outcome σ ProgramName :=
  match _binding d w with
  | (Except.error e, w2) => (Except.error e, w2)
  | (Except.ok n, w2) => (Except.ok (ProgramName.mk n), w2)

/-- The static function `Bind(program)`. -/
def Bind (d : Driver σ) (program : ProgramName) (w : World σ) : Outcome σ Unit :=
  let w1 := glUseProgram d (GetGLName program) w
  OGLPLUS_VERIFY d GLFunc.UseProgram ErrorClass.ObjectError
    (NoInfo.Object (GetGLName program)) w1

end ObjBindingOps

/-! ## `ObjCommonOps<tag::Program>` -/

namespace ObjCommonOps
variable {σ : Type}

/-- The member function `Bind()`; `this` is the program object. -/
def Bind (d : Driver σ) (this : ProgramName) (w : World σ) : Outcome σ Unit :=
  ObjBindingOps.Bind d this w

/-- The member function `Use()`; `this` is the program object. -/
def Use (d : Driver σ) (this : ProgramName) (w : World σ) : Outcome σ Unit :=
  ObjBindingOps.Bind d this w

end ObjCommonOps

/-! ## `ObjectOps<tag::DirectState, tag::Program>` -/

namespace ProgramOps
variable {σ : Type}

/-- The member function `GetIntParam(query)`. -/
def GetIntParam (d : Driver σ) (this : ProgramName) (query : GLenum) (w : World σ) :
    Outcome σ GLint :=
  let r := glGetProgramiv d this._name query w
  match OGLPLUS_VERIFY d GLFunc.GetProgramiv ErrorClass.ObjectError
      ((NoInfo.Object (GetGLName this)).EnumParam query) r.2 with
  | (Except.error e, w2) => (Except.error e, w2)
  | (Except.ok _, w2) => (Except.ok r.1, w2)

/-- The member function `GetStageIntParam(stage, query)`. -/
def GetStageIntParam (d : Driver σ) (this : ProgramName) (stage query : GLenum)
    (w : World σ) : Outcome σ GLint :=
  let r := glGetProgramStageiv d this._name stage query w
  match OGLPLUS_VERIFY d GLFunc.GetProgramStageiv ErrorClass.ObjectError
      ((NoInfo.Object (GetGLName this)).EnumParam query) r.2 with
  | (Except.error e, w2) => (Except.error e, w2)
  | (Except.ok _, w2) => (Except.ok r.1, w2)

/-- The member function `IsLinked()`. -/
def IsLinked (d : Driver σ) (this : ProgramName) (w : World σ) : Outcome σ Bool :=
  match GetIntParam d this GL_LINK_STATUS w with
  | (Except.error e, w2) => (Except.error e, w2)
  | (Except.ok v, w2) => (Except.ok (decide (v = GL_TRUE)), w2)

/-- The member function `IsValid()`. -/
def IsValid (d : Driver σ) (this : ProgramName) (w : World σ) : Outcome σ Bool :=
  match GetIntParam d this GL_VALIDATE_STATUS w with
  | (Except.error e, w2) => (Except.error e, w2)
  | (Except.ok v, w2) => (Except.ok (decide (v = GL_TRUE)), w2)

/-- The member function `BindLocation(vertex_attrib_slot, identifier)`. -/
def BindLocation (d : Driver σ) (this : ProgramName) (vertex_attrib_slot : VertexAttribSlot)
    (identifier : String) (w : World σ) : Outcome σ Unit :=
  let w1 := glBindAttribLocation d this._name vertex_attrib_slot.value identifier w
  OGLPLUS_CHECK d GLFunc.BindAttribLocation ErrorClass.ProgVarError
    (((NoInfo.Program (GetGLName this)).Identifier identifier).Index
      vertex_attrib_slot.value) w1

end ProgramOps

/-! ## `QuickProgram` -/

/-- Modelled from the spec: `ShaderName`, the typed handle (a numeric name under
the Shader tag) declared in `oglplus/object/name.hpp`. -/
structure ShaderName where
  _name : GLuint
  deriving DecidableEq

/-- The member functions of `program.hpp` that are only declared there; their
bodies are in `oglplus/program.ipp`, which is not among the sources, so they
are taken as parameters: each may change the world in any way and may raise. -/
structure ProgramIpp (σ : Type) where
  AttachShaders : ProgramName → List ShaderName → World σ → Outcome σ Unit
  MakeSeparable : ProgramName → Bool → World σ → Outcome σ Unit
  Link : ProgramName → World σ → Outcome σ Unit

/-- A member function invocation made by a constructor body. -/
inductive Member
  | AttachShaders (shaders : List ShaderName)
  | MakeSeparable (para : Bool)
  | Link
  | Use
  deriving DecidableEq

/-- State of a constructor body: the world and the member functions invoked so
far, in order. -/
abbrev Steps (σ : Type) := World σ × List Member

/-- A statement of a constructor body. -/
abbrev Stmt (σ : Type) := Steps σ → Except Error Unit × Steps σ

namespace Stmt
variable {σ : Type}

/-- The statement `m(...);`: invokes the member function `m`, whose body is `body`;
its return value is discarded. -/
def invoke (m : Member) (body : World σ → Outcome σ Unit) : Stmt σ :=
  fun st => ((body st.1).1, ((body st.1).2, st.2 ++ [m]))

/-- Sequencing `a; b` of C++: when `a` raises, `b` is not run. -/
def seq (a b : Stmt σ) : Stmt σ :=
  fun st =>
    match a st with
    | (Except.error e, st1) => (Except.error e, st1)
    | (Except.ok _, st1) => b st1

/-- The empty statement. -/
def skip : Stmt σ := fun st => (Except.ok (), st)

end Stmt

section quick
variable {σ : Type}

/-- Body of the constructor `QuickProgram(const Sequence<ShaderName>& shaders)`, run
on the object `this` that the base class constructor has set up. -/
def QuickProgram (d : Driver σ) (ipp : ProgramIpp σ) (this : ProgramName)
    (shaders : List ShaderName) : Stmt σ :=
  Stmt.seq (Stmt.invoke (Member.AttachShaders shaders) (ipp.AttachShaders this shaders))
    (Stmt.seq (Stmt.invoke Member.Link (ipp.Link this))
      (Stmt.invoke Member.Use (ObjCommonOps.Use d this)))

/-- Body of the constructor
`QuickProgram(bool separable, const Sequence<ShaderName>& shaders)`;
`MakeSeparable()` is called with its default argument `para = true`. -/
def QuickProgramSeparable (d : Driver σ) (ipp : ProgramIpp σ) (this : ProgramName)
    (separable : Bool) (shaders : List ShaderName) : Stmt σ :=
  Stmt.seq (Stmt.invoke (Member.AttachShaders shaders) (ipp.AttachShaders this shaders))
    (Stmt.seq
      (if separable then Stmt.invoke (Member.MakeSeparable true) (ipp.MakeSeparable this true)
        else Stmt.skip)
      (Stmt.seq (Stmt.invoke Member.Link (ipp.Link this))
        (Stmt.invoke Member.Use (ObjCommonOps.Use d this))))

end quick

/-! ## Reading traces -/

/-- Arguments of the `UseProgram` calls of a trace, in call order. -/
def useArgs : List GLCall → List GLuint
  | [] => []
  | GLCall.UseProgram n :: rest => n :: useArgs rest
  | _ :: rest => useArgs rest

/-- The call is a read of the error state. -/
def GLCall.isGetError : GLCall → Bool
  | GLCall.GetError _ => true
  | _ => false

/-- A trace in which every driver call is immediately followed by a read of the
error state, and which ends at the first read that finds the state set. -/
def checkedRun : List GLCall → Bool
  | [] => true
  | c :: GLCall.GetError e :: rest =>
    !c.isGetError && (if e = GL_NO_ERROR then checkedRun rest else rest.isEmpty)
  | _ => false

/-- Some read of the error state in the trace found it set. -/
def errorSeen : List GLCall → Bool
  | [] => false
  | GLCall.GetError e :: rest => decide (e ≠ GL_NO_ERROR) || errorSeen rest
  | _ :: rest => errorSeen rest

/-- Replays a trace on the driver from state `s`: every recorded call is made
again, its recorded result is compared with what the driver answers, and the
final driver state is returned when all of them agree. -/
def Driver.replay {σ : Type} (d : Driver σ) : σ → List GLCall → Option σ
  | s, [] => some s
  | s, GLCall.CreateProgram r :: cs =>
    if (d.CreateProgram s).1 = r then d.replay (d.CreateProgram s).2 cs else none
  | s, GLCall.DeleteProgram n :: cs => d.replay (d.DeleteProgram n s) cs
  | s, GLCall.IsProgram n r :: cs =>
    if (d.IsProgram n s).1 = r then d.replay (d.IsProgram n s).2 cs else none
  | s, GLCall.GetIntegerv p r :: cs =>
    if (d.GetIntegerv p s).1 = r then d.replay (d.GetIntegerv p s).2 cs else none
  | s, GLCall.UseProgram n :: cs => d.replay (d.UseProgram n s) cs
  | s, GLCall.GetProgramiv n p r :: cs =>
    if (d.GetProgramiv n p s).1 = r then d.replay (d.GetProgramiv n p s).2 cs else none
  | s, GLCall.GetProgramStageiv n st p r :: cs =>
    if (d.GetProgramStageiv n st p s).1 = r then d.replay (d.GetProgramStageiv n st p s).2 cs
    else none
  | s, GLCall.BindAttribLocation n i x :: cs => d.replay (d.BindAttribLocation n i x s) cs
  | s, GLCall.GetError e :: cs =>
    if (d.GetError s).1 = e then d.replay (d.GetError s).2 cs else none

/-- What it means for a wrapper run from `w` to `w2` with outcome `r` (raised or
not) to check every driver call: the calls it added to the trace are truly the
driver's (they replay to the final state), each is immediately followed by a
read of the error state, the run ends at the first read that finds it set, and
it raised exactly if some read found it set. -/
def ChecksEveryCall {σ : Type} (d : Driver σ) (w : World σ) (r : Bool) (w2 : World σ) : Prop :=
  ∃ seg, w2.log = w.log ++ seg ∧ d.replay w.drv seg = some w2.drv ∧
    checkedRun seg = true ∧ r = errorSeen seg

/-- Values returned by the `CreateProgram` calls of a trace, in call order. -/
def createRets : List GLCall → List GLuint
  | [] => []
  | GLCall.CreateProgram r :: rest => r :: createRets rest
  | _ :: rest => createRets rest

/-- Arguments of the `DeleteProgram` calls of a trace, in call order. -/
def deleteArgs : List GLCall → List GLuint
  | [] => []
  | GLCall.DeleteProgram n :: rest => n :: deleteArgs rest
  | _ :: rest => deleteArgs rest

/-- Driver state after `k` rounds of a `CreateProgram` call followed by a read of
the error state, started from `s`. -/
def createRounds {σ : Type} (d : Driver σ) : Nat → σ → σ
  | 0, s => s
  | k + 1, s => createRounds d k (d.GetError (d.CreateProgram s).2).2

/-- Value returned by the `CreateProgram` call with 0-based index `j` in a run of
such rounds started from `s`. -/
def createdAt {σ : Type} (d : Driver σ) (s : σ) (j : Nat) : GLuint :=
  (d.CreateProgram (createRounds d j s)).1

/-- Error state read right after the `CreateProgram` call with 0-based index `j`
in a run of such rounds started from `s`. -/
def errorAfterCreate {σ : Type} (d : Driver σ) (s : σ) (j : Nat) : GLenum :=
  (d.GetError (d.CreateProgram (createRounds d j s)).2).1

/-! ## A reference driver for concrete runs -/

/-- State of the reference driver: the name the next `CreateProgram` hands out,
the program in use, the error flag, and the status every program reports. -/
structure Sim where
  fresh : GLuint
  current : GLuint
  err : GLenum
  status : GLint
  deriving DecidableEq

/-- Value of `GL_INVALID_VALUE` in the OpenGL headers. -/
def GL_INVALID_VALUE : GLenum := 0x0501
/-- Value of `GL_INVALID_OPERATION` in the OpenGL headers. -/
def GL_INVALID_OPERATION : GLenum := 0x0502

/-- A small driver.  `CreateProgram` hands out `fresh` and increments it; once
`fresh` is 0 it keeps returning 0 without flagging an error.  `UseProgram`
makes its argument current and `GetIntegerv` reports the current program as a
signed 32-bit integer.  `DeleteProgram` ignores the name 0 and flags
`GL_INVALID_VALUE` for a name that was never handed out; `BindAttribLocation`
flags it for an index of 16 or more.  The program queries report `status`, and
`GetError` returns the flag and clears it. -/
def simDriver : Driver Sim where
  CreateProgram := fun s =>
    (s.fresh, ⟨if s.fresh = 0 then 0 else s.fresh + 1, s.current, s.err, s.status⟩)
  DeleteProgram := fun n s =>
    if n ≠ 0 ∧ s.fresh ≤ n then ⟨s.fresh, s.current, GL_INVALID_VALUE, s.status⟩ else s
  IsProgram := fun n s => (if n = 0 then 0 else 1, s)
  GetIntegerv := fun p s => (if p = GL_CURRENT_PROGRAM then toGLint s.current else 0, s)
  UseProgram := fun n s => ⟨s.fresh, n, s.err, s.status⟩
  GetProgramiv := fun _ _ s => (s.status, s)
  GetProgramStageiv := fun _ _ _ s => (s.status, s)
  BindAttribLocation := fun _ i _ s =>
    if 16 ≤ i then ⟨s.fresh, s.current, GL_INVALID_VALUE, s.status⟩ else s
  GetError := fun s => (s.err, ⟨s.fresh, s.current, GL_NO_ERROR, s.status⟩)

/-- The reference driver, except that `CreateProgram` flags `GL_INVALID_OPERATION`
whenever it returns 0. -/
def strictDriver : Driver Sim where
  CreateProgram := fun s =>
    (s.fresh, ⟨if s.fresh = 0 then 0 else s.fresh + 1, s.current,
      if s.fresh = 0 then GL_INVALID_OPERATION else s.err, s.status⟩)
  DeleteProgram := simDriver.DeleteProgram
  IsProgram := simDriver.IsProgram
  GetIntegerv := simDriver.GetIntegerv
  UseProgram := simDriver.UseProgram
  GetProgramiv := simDriver.GetProgramiv
  GetProgramStageiv := simDriver.GetProgramStageiv
  BindAttribLocation := simDriver.BindAttribLocation
  GetError := simDriver.GetError

/-- Value of `GL_OUT_OF_MEMORY` in the OpenGL headers. -/
def GL_OUT_OF_MEMORY : GLenum := 0x0505

/-- The reference driver, except that only the names below 3 can be created: from
then on `CreateProgram` returns 0 and flags `GL_OUT_OF_MEMORY`. -/
def limitedDriver : Driver Sim where
  CreateProgram := fun s =>
    if 3 ≤ s.fresh then (0, ⟨s.fresh, s.current, GL_OUT_OF_MEMORY, s.status⟩)
    else (s.fresh, ⟨s.fresh + 1, s.current, s.err, s.status⟩)
  DeleteProgram := simDriver.DeleteProgram
  IsProgram := simDriver.IsProgram
  GetIntegerv := simDriver.GetIntegerv
  UseProgram := simDriver.UseProgram
  GetProgramiv := simDriver.GetProgramiv
  GetProgramStageiv := simDriver.GetProgramStageiv
  BindAttribLocation := simDriver.BindAttribLocation
  GetError := simDriver.GetError

/-- Reference bodies for the members of `program.ipp`: `AttachShaders` raises when
a shader name is 0, `Link` raises when the status is not `GL_TRUE`, and
`MakeSeparable` returns normally; none of them touches the world. -/
def simIpp : ProgramIpp Sim where
  AttachShaders := fun this shaders w =>
    if shaders.any (fun x => decide (x._name = 0)) then
      (Except.error ⟨ErrorClass.ObjectError, GL_INVALID_VALUE, NoInfo.Object this._name⟩, w)
    else (Except.ok (), w)
  MakeSeparable := fun _ _ w => (Except.ok (), w)
  Link := fun this w =>
    if w.drv.status = GL_TRUE then (Except.ok (), w)
    else (Except.error ⟨ErrorClass.ObjectError, GL_INVALID_OPERATION, NoInfo.Object this._name⟩, w)

/-! ## Theorems -/

section lemmas
variable {σ : Type}

theorem OGLPLUS_CHECK_fst (d : Driver σ) (f : GLFunc) (cls : ErrorClass) (info : ErrorInfo)
    (w : World σ) :
    (OGLPLUS_CHECK d f cls info w).1 =
      if (d.GetError w.drv).1 = GL_NO_ERROR then Except.ok ()
      else Except.error ⟨cls, (d.GetError w.drv).1, info.GLFunc f⟩ := by
  unfold OGLPLUS_CHECK glGetError
  by_cases h : (d.GetError w.drv).1 = GL_NO_ERROR <;> simp [h]

theorem OGLPLUS_CHECK_snd (d : Driver σ) (f : GLFunc) (cls : ErrorClass) (info : ErrorInfo)
    (w : World σ) :
    (OGLPLUS_CHECK d f cls info w).2 =
      w.step (d.GetError w.drv).2 (GLCall.GetError (d.GetError w.drv).1) := by
  unfold OGLPLUS_CHECK glGetError
  by_cases h : (d.GetError w.drv).1 = GL_NO_ERROR <;> simp [h]

theorem replay_cons (d : Driver σ) (s : σ) (c : GLCall) (cs : List GLCall) :
    d.replay s (c :: cs) = (d.replay s [c]).bind (fun s1 => d.replay s1 cs) := by
  cases c <;> simp only [Driver.replay] <;> (try split) <;> simp

theorem replay_append (d : Driver σ) (s : σ) (xs ys : List GLCall) :
    d.replay s (xs ++ ys) = (d.replay s xs).bind (fun s1 => d.replay s1 ys) := by
  induction xs generalizing s with
  | nil => simp [Driver.replay]
  | cons c cs ih =>
    rw [List.cons_append, replay_cons, replay_cons d s c cs]
    cases h : d.replay s [c] with
    | none => simp
    | some s1 => simp [ih]

/-- A call followed by the check macro checks every call. -/
theorem checks_call_then_check (d : Driver σ) (f : GLFunc) (cls : ErrorClass)
    (info : ErrorInfo) (w : World σ) (c : GLCall) (s1 : σ)
    (hc : c.isGetError = false) (hr : d.replay w.drv [c] = some s1) :
    ChecksEveryCall d w (raised (OGLPLUS_CHECK d f cls info (w.step s1 c)).1)
      (OGLPLUS_CHECK d f cls info (w.step s1 c)).2 := by
  refine ⟨[c, GLCall.GetError (d.GetError s1).1], ?_, ?_, ?_, ?_⟩
  · simp [OGLPLUS_CHECK_snd, World.step]
  · rw [replay_cons, hr]
    simp [OGLPLUS_CHECK_snd, World.step, Driver.replay]
  · cases c <;> simp_all [checkedRun, GLCall.isGetError]
  · rw [OGLPLUS_CHECK_fst]
    cases c <;> simp_all [errorSeen, GLCall.isGetError, World.step] <;>
      (split <;> simp_all [raised])

theorem errorSeen_append (xs ys : List GLCall) :
    errorSeen (xs ++ ys) = (errorSeen xs || errorSeen ys) := by
  induction xs with
  | nil => simp [errorSeen]
  | cons c cs ih => cases c <;> simp [errorSeen, ih, Bool.or_assoc]

theorem checkedRun_append (xs ys : List GLCall) (h : checkedRun xs = true)
    (h2 : errorSeen xs = false) : checkedRun (xs ++ ys) = checkedRun ys := by
  induction xs using checkedRun.induct with
  | case1 => simp
  | case2 c e rest ih =>
    simp only [checkedRun, errorSeen] at h h2
    cases c <;> simp_all [checkedRun, errorSeen, GLCall.isGetError]
  | case3 xs h1 h3 =>
    exfalso
    unfold checkedRun at h
    split at h <;> simp_all

/-- Runs that check every call compose, as long as the first one did not raise. -/
theorem ChecksEveryCall.trans {d : Driver σ} {w w1 w2 : World σ} {r : Bool}
    (h1 : ChecksEveryCall d w false w1) (h2 : ChecksEveryCall d w1 r w2) :
    ChecksEveryCall d w r w2 := by
  obtain ⟨s1, hl1, hp1, hc1, he1⟩ := h1
  obtain ⟨s2, hl2, hp2, hc2, he2⟩ := h2
  refine ⟨s1 ++ s2, ?_, ?_, ?_, ?_⟩
  · rw [hl2, hl1, List.append_assoc]
  · rw [replay_append, hp1]; simpa using hp2
  · rw [checkedRun_append _ _ hc1 he1.symm]; exact hc2
  · rw [errorSeen_append, ← he1, ← he2]; simp

theorem ChecksEveryCall.refl (d : Driver σ) (w : World σ) : ChecksEveryCall d w false w :=
  ⟨[], by simp, by simp [Driver.replay], by simp [checkedRun], by simp [errorSeen]⟩

theorem Gen_loop_checks (d : Driver σ) (n i : Nat) (names : Nat → GLuint) (w : World σ) :
    ChecksEveryCall d w (raised (ObjGenDelOps.Gen.loop d n i names w).1)
      (ObjGenDelOps.Gen.loop d n i names w).2.2 := by
  induction n generalizing i names w with
  | zero => simpa [ObjGenDelOps.Gen.loop, raised] using ChecksEveryCall.refl d w
  | succ n ih =>
    have hs := checks_call_then_check d GLFunc.CreateProgram ErrorClass.Error NoInfo w
      (GLCall.CreateProgram (d.CreateProgram w.drv).1) (d.CreateProgram w.drv).2 rfl
      (by simp [Driver.replay])
    rcases hck : OGLPLUS_CHECK_SIMPLE d GLFunc.CreateProgram (glCreateProgram d w).2 with
      ⟨e | u, w2⟩
    · simp only [ObjGenDelOps.Gen.loop, hck]
      simp only [OGLPLUS_CHECK_SIMPLE, glCreateProgram] at hck
      rw [hck] at hs
      exact hs
    · simp only [ObjGenDelOps.Gen.loop, hck]
      simp only [OGLPLUS_CHECK_SIMPLE, glCreateProgram] at hck
      rw [hck] at hs
      exact ChecksEveryCall.trans hs (ih _ _ _)

theorem Delete_loop_checks (d : Driver σ) (n i : Nat) (names : Nat → GLuint) (w : World σ) :
    ChecksEveryCall d w (raised (ObjGenDelOps.Delete.loop d n i names w).1)
      (ObjGenDelOps.Delete.loop d n i names w).2.2 := by
  induction n generalizing i w with
  | zero => simpa [ObjGenDelOps.Delete.loop, raised] using ChecksEveryCall.refl d w
  | succ n ih =>
    have hs := checks_call_then_check d GLFunc.DeleteProgram ErrorClass.Error NoInfo w
      (GLCall.DeleteProgram (names i)) (d.DeleteProgram (names i) w.drv) rfl
      (by simp [Driver.replay])
    rcases hck : OGLPLUS_VERIFY_SIMPLE d GLFunc.DeleteProgram (glDeleteProgram d (names i) w)
      with ⟨e | u, w2⟩
    · simp only [ObjGenDelOps.Delete.loop, hck]
      simp only [OGLPLUS_VERIFY_SIMPLE, OGLPLUS_VERIFY, glDeleteProgram] at hck
      rw [hck] at hs
      exact hs
    · simp only [ObjGenDelOps.Delete.loop, hck]
      simp only [OGLPLUS_VERIFY_SIMPLE, OGLPLUS_VERIFY, glDeleteProgram] at hck
      rw [hck] at hs
      exact ChecksEveryCall.trans hs (ih _ _)

/-- Passing the outcome of a check on, with a value on normal return, keeps the
raised flag and the world. -/
theorem raised_pass {α : Type} (x : Outcome σ Unit) (v : α) :
    raised (match x with
      | (Except.error e, w2) => ((Except.error e : Except Error α), w2)
      | (Except.ok _, w2) => (Except.ok v, w2)).1 = raised x.1 ∧
    (match x with
      | (Except.error e, w2) => ((Except.error e : Except Error α), w2)
      | (Except.ok _, w2) => (Except.ok v, w2)).2 = x.2 := by
  rcases x with ⟨e | u, w2⟩ <;> simp [raised]

end lemmas

/-- C1: every wrapper of program.hpp that calls the driver (Gen, Delete, IsA,
Binding, Bind, GetIntParam, GetStageIntParam, BindLocation), from every world
and for every argument, reads the driver's error state immediately after each
driver call it makes, stops at the first read that finds it set, and raises
exactly if a read found it set (so it returns normally exactly when the state
was clear after every call it made). -/
theorem wrappers_check_every_call {σ : Type} (d : Driver σ) (w : World σ) :
    (∀ count names, ChecksEveryCall d w (raised (ObjGenDelOps.Gen d count names w).1)
        (ObjGenDelOps.Gen d count names w).2.2) ∧
    (∀ count names, ChecksEveryCall d w (raised (ObjGenDelOps.Delete d count names w).1)
        (ObjGenDelOps.Delete d count names w).2.2) ∧
    (∀ name, ChecksEveryCall d w (raised (ObjGenDelOps.IsA d name w).1)
        (ObjGenDelOps.IsA d name w).2) ∧
    ChecksEveryCall d w (raised (ObjBindingOps.Binding d w).1) (ObjBindingOps.Binding d w).2 ∧
    (∀ program, ChecksEveryCall d w (raised (ObjBindingOps.Bind d program w).1)
        (ObjBindingOps.Bind d program w).2) ∧
    (∀ this query, ChecksEveryCall d w (raised (ProgramOps.GetIntParam d this query w).1)
        (ProgramOps.GetIntParam d this query w).2) ∧
    (∀ this stage query,
      ChecksEveryCall d w (raised (ProgramOps.GetStageIntParam d this stage query w).1)
        (ProgramOps.GetStageIntParam d this stage query w).2) ∧
    (∀ this slot identifier,
      ChecksEveryCall d w (raised (ProgramOps.BindLocation d this slot identifier w).1)
        (ProgramOps.BindLocation d this slot identifier w).2) := by
  refine ⟨fun count names => Gen_loop_checks d _ _ names w,
    fun count names => Delete_loop_checks d _ _ names w, ?_, ?_, ?_, ?_, ?_, ?_⟩
  · intro name
    have hs := checks_call_then_check d GLFunc.IsProgram ErrorClass.Error NoInfo w
      (GLCall.IsProgram name (d.IsProgram name w.drv).1) (d.IsProgram name w.drv).2 rfl
      (by simp [Driver.replay])
    have hp := raised_pass (OGLPLUS_VERIFY_SIMPLE d GLFunc.IsProgram (glIsProgram d name w).2)
      (glIsProgram d name w).1
    unfold ObjGenDelOps.IsA
    rw [hp.1, hp.2]
    exact hs
  · have hs := checks_call_then_check d GLFunc.GetIntegerv ErrorClass.Error
      (NoInfo.EnumParam GL_CURRENT_PROGRAM) w
      (GLCall.GetIntegerv GL_CURRENT_PROGRAM (d.GetIntegerv GL_CURRENT_PROGRAM w.drv).1)
      (d.GetIntegerv GL_CURRENT_PROGRAM w.drv).2 rfl (by simp [Driver.replay])
    have hp := raised_pass (OGLPLUS_VERIFY d GLFunc.GetIntegerv ErrorClass.Error
      (NoInfo.EnumParam GL_CURRENT_PROGRAM) (glGetIntegerv d GL_CURRENT_PROGRAM w).2)
      (toGLuint (glGetIntegerv d GL_CURRENT_PROGRAM w).1)
    have hb : raised (ObjBindingOps.Binding d w).1 = raised (ObjBindingOps._binding d w).1 ∧
        (ObjBindingOps.Binding d w).2 = (ObjBindingOps._binding d w).2 := by
      unfold ObjBindingOps.Binding
      rcases ObjBindingOps._binding d w with ⟨e | u, w2⟩ <;> simp [raised]
    rw [hb.1, hb.2]
    unfold ObjBindingOps._binding
    rw [hp.1, hp.2]
    exact hs
  · intro program
    exact checks_call_then_check d GLFunc.UseProgram ErrorClass.ObjectError
      (NoInfo.Object (GetGLName program)) w (GLCall.UseProgram (GetGLName program))
      (d.UseProgram (GetGLName program) w.drv) rfl (by simp [Driver.replay])
  · intro this query
    have hs := checks_call_then_check d GLFunc.GetProgramiv ErrorClass.ObjectError
      ((NoInfo.Object (GetGLName this)).EnumParam query) w
      (GLCall.GetProgramiv this._name query (d.GetProgramiv this._name query w.drv).1)
      (d.GetProgramiv this._name query w.drv).2 rfl (by simp [Driver.replay])
    have hp := raised_pass (OGLPLUS_VERIFY d GLFunc.GetProgramiv ErrorClass.ObjectError
      ((NoInfo.Object (GetGLName this)).EnumParam query)
      (glGetProgramiv d this._name query w).2) (glGetProgramiv d this._name query w).1
    unfold ProgramOps.GetIntParam
    rw [hp.1, hp.2]
    exact hs
  · intro this stage query
    have hs := checks_call_then_check d GLFunc.GetProgramStageiv ErrorClass.ObjectError
      ((NoInfo.Object (GetGLName this)).EnumParam query) w
      (GLCall.GetProgramStageiv this._name stage query
        (d.GetProgramStageiv this._name stage query w.drv).1)
      (d.GetProgramStageiv this._name stage query w.drv).2 rfl (by simp [Driver.replay])
    have hp := raised_pass (OGLPLUS_VERIFY d GLFunc.GetProgramStageiv ErrorClass.ObjectError
      ((NoInfo.Object (GetGLName this)).EnumParam query)
      (glGetProgramStageiv d this._name stage query w).2)
      (glGetProgramStageiv d this._name stage query w).1
    unfold ProgramOps.GetStageIntParam
    rw [hp.1, hp.2]
    exact hs
  · intro this slot identifier
    exact checks_call_then_check d GLFunc.BindAttribLocation ErrorClass.ProgVarError
      (((NoInfo.Program (GetGLName this)).Identifier identifier).Index slot.value) w
      (GLCall.BindAttribLocation this._name slot.value identifier)
      (d.BindAttribLocation this._name slot.value identifier w.drv) rfl
      (by simp [Driver.replay])

section status
variable {σ : Type}

theorem GetIntParam_fst (d : Driver σ) (this : ProgramName) (query : GLenum) (w : World σ) :
    (ProgramOps.GetIntParam d this query w).1 =
      if (d.GetError (d.GetProgramiv this._name query w.drv).2).1 = GL_NO_ERROR then
        Except.ok (d.GetProgramiv this._name query w.drv).1
      else Except.error ⟨ErrorClass.ObjectError,
        (d.GetError (d.GetProgramiv this._name query w.drv).2).1,
        ((NoInfo.Object (GetGLName this)).EnumParam query).GLFunc GLFunc.GetProgramiv⟩ := by
  unfold ProgramOps.GetIntParam OGLPLUS_VERIFY OGLPLUS_CHECK glGetError glGetProgramiv
  by_cases h : (d.GetError (d.GetProgramiv this._name query w.drv).2).1 = GL_NO_ERROR <;>
    simp [h, World.step]

theorem IsLinked_fst (d : Driver σ) (this : ProgramName) (w : World σ) :
    (ProgramOps.IsLinked d this w).1 =
      match (ProgramOps.GetIntParam d this GL_LINK_STATUS w).1 with
      | Except.error e => Except.error e
      | Except.ok v => Except.ok (decide (v = GL_TRUE)) := by
  unfold ProgramOps.IsLinked
  rcases ProgramOps.GetIntParam d this GL_LINK_STATUS w with ⟨e | v, w2⟩ <;> rfl

theorem IsValid_fst (d : Driver σ) (this : ProgramName) (w : World σ) :
    (ProgramOps.IsValid d this w).1 =
      match (ProgramOps.GetIntParam d this GL_VALIDATE_STATUS w).1 with
      | Except.error e => Except.error e
      | Except.ok v => Except.ok (decide (v = GL_TRUE)) := by
  unfold ProgramOps.IsValid
  rcases ProgramOps.GetIntParam d this GL_VALIDATE_STATUS w with ⟨e | v, w2⟩ <;> rfl

end status

/-- C2, as stated, fails: in a driver state whose error flag is set the driver
reports `GL_TRUE` for `GL_LINK_STATUS`, yet `IsLinked()` raises instead of
returning true (and likewise `IsValid()`). -/
theorem IsLinked_raises_on_GL_TRUE :
    (simDriver.GetProgramiv 1 GL_LINK_STATUS ⟨2, 0, GL_INVALID_OPERATION, GL_TRUE⟩).1 = GL_TRUE ∧
    (ProgramOps.IsLinked simDriver ⟨1⟩ ⟨⟨2, 0, GL_INVALID_OPERATION, GL_TRUE⟩, []⟩).1 ≠
      Except.ok true ∧
    raised (ProgramOps.IsLinked simDriver ⟨1⟩ ⟨⟨2, 0, GL_INVALID_OPERATION, GL_TRUE⟩, []⟩).1
      = true ∧
    raised (ProgramOps.IsValid simDriver ⟨1⟩ ⟨⟨2, 0, GL_INVALID_OPERATION, GL_TRUE⟩, []⟩).1
      = true := by
  refine ⟨rfl, ?_, rfl, rfl⟩
  intro h
  have h2 : raised (ProgramOps.IsLinked simDriver ⟨1⟩
      ⟨⟨2, 0, GL_INVALID_OPERATION, GL_TRUE⟩, []⟩).1 = raised (Except.ok true : Except Error Bool) :=
    congrArg raised h
  exact absurd h2 (by decide)

/-- C2, amended: from every driver state `s` (whatever the trace), when the error
state is clear after the `GetProgramiv` call `IsLinked()` returns exactly
whether the value the driver reports for `GL_LINK_STATUS` equals `GL_TRUE`, and
`IsValid()` whether the one for `GL_VALIDATE_STATUS` does; when the error state
is set they raise; and the outcome depends on the program name and the driver
state only, not on anything remembered from earlier calls. -/
theorem IsLinked_IsValid_live {σ : Type} (d : Driver σ) (this : ProgramName) (s : σ)
    (log log2 : List GLCall) :
    ((d.GetError (d.GetProgramiv this._name GL_LINK_STATUS s).2).1 = GL_NO_ERROR →
      (ProgramOps.IsLinked d this ⟨s, log⟩).1 =
        Except.ok (decide ((d.GetProgramiv this._name GL_LINK_STATUS s).1 = GL_TRUE))) ∧
    ((d.GetError (d.GetProgramiv this._name GL_LINK_STATUS s).2).1 ≠ GL_NO_ERROR →
      raised (ProgramOps.IsLinked d this ⟨s, log⟩).1 = true) ∧
    (ProgramOps.IsLinked d this ⟨s, log⟩).1 = (ProgramOps.IsLinked d this ⟨s, log2⟩).1 ∧
    ((d.GetError (d.GetProgramiv this._name GL_VALIDATE_STATUS s).2).1 = GL_NO_ERROR →
      (ProgramOps.IsValid d this ⟨s, log⟩).1 =
        Except.ok (decide ((d.GetProgramiv this._name GL_VALIDATE_STATUS s).1 = GL_TRUE))) ∧
    ((d.GetError (d.GetProgramiv this._name GL_VALIDATE_STATUS s).2).1 ≠ GL_NO_ERROR →
      raised (ProgramOps.IsValid d this ⟨s, log⟩).1 = true) ∧
    (ProgramOps.IsValid d this ⟨s, log⟩).1 = (ProgramOps.IsValid d this ⟨s, log2⟩).1 := by
  refine ⟨?_, ?_, ?_, ?_, ?_, ?_⟩
  · intro h
    rw [IsLinked_fst, GetIntParam_fst]; simp [h]
  · intro h
    rw [IsLinked_fst, GetIntParam_fst]; simp [h, raised]
  · rw [IsLinked_fst, IsLinked_fst, GetIntParam_fst, GetIntParam_fst]
  · intro h
    rw [IsValid_fst, GetIntParam_fst]; simp [h]
  · intro h
    rw [IsValid_fst, GetIntParam_fst]; simp [h, raised]
  · rw [IsValid_fst, IsValid_fst, GetIntParam_fst, GetIntParam_fst]

/-- Witness of C2 (amended): a linked program in a clean state, and the same query
in a state whose error flag is set. -/
theorem IsLinked_IsValid_live_witness :
    (ProgramOps.IsLinked simDriver ⟨1⟩ ⟨⟨2, 0, GL_NO_ERROR, GL_TRUE⟩, []⟩).1 = Except.ok true ∧
    (ProgramOps.IsLinked simDriver ⟨1⟩ ⟨⟨2, 0, GL_NO_ERROR, 0⟩, []⟩).1 = Except.ok false ∧
    raised (ProgramOps.IsValid simDriver ⟨1⟩ ⟨⟨2, 0, GL_INVALID_VALUE, GL_TRUE⟩, []⟩).1 = true :=
  ⟨(IsLinked_IsValid_live simDriver ⟨1⟩ ⟨2, 0, GL_NO_ERROR, GL_TRUE⟩ [] []).1 rfl,
   (IsLinked_IsValid_live simDriver ⟨1⟩ ⟨2, 0, GL_NO_ERROR, 0⟩ [] []).1 rfl,
   (IsLinked_IsValid_live simDriver ⟨1⟩ ⟨2, 0, GL_INVALID_VALUE, GL_TRUE⟩ [] []).2.2.2.2.1
     (by decide)⟩

section errors
variable {σ : Type}

theorem OGLPLUS_CHECK_error (d : Driver σ) (f : GLFunc) (cls : ErrorClass) (info : ErrorInfo)
    (w : World σ) (e : Error) (h : (OGLPLUS_CHECK d f cls info w).1 = Except.error e) :
    e = ⟨cls, (d.GetError w.drv).1, info.GLFunc f⟩ ∧ (d.GetError w.drv).1 ≠ GL_NO_ERROR := by
  rw [OGLPLUS_CHECK_fst] at h
  by_cases h0 : (d.GetError w.drv).1 = GL_NO_ERROR
  · simp [h0] at h
  · simp only [h0, if_false] at h
    exact ⟨(Except.error.inj h).symm, h0⟩

/-- An error passed on by a wrapper is the error of its check. -/
theorem pass_error {α : Type} (x : Outcome σ Unit) (v : α) (e : Error)
    (h : (match x with
      | (Except.error e, w2) => ((Except.error e : Except Error α), w2)
      | (Except.ok _, w2) => (Except.ok v, w2)).1 = Except.error e) :
    x.1 = Except.error e := by
  rcases x with ⟨e2 | u, w2⟩ <;> simp_all

theorem Gen_loop_error (d : Driver σ) (n i : Nat) (names : Nat → GLuint) (w : World σ)
    (e : Error) (h : (ObjGenDelOps.Gen.loop d n i names w).1 = Except.error e) :
    e.cls = ErrorClass.Error ∧ e.info = NoInfo.GLFunc GLFunc.CreateProgram := by
  induction n generalizing i names w with
  | zero => simp [ObjGenDelOps.Gen.loop] at h
  | succ n ih =>
    rcases hck : OGLPLUS_CHECK_SIMPLE d GLFunc.CreateProgram (glCreateProgram d w).2 with
      ⟨e2 | u, w2⟩
    · simp only [ObjGenDelOps.Gen.loop, hck] at h
      have h3 := OGLPLUS_CHECK_error d GLFunc.CreateProgram ErrorClass.Error NoInfo
        (glCreateProgram d w).2 e2 (by rw [← OGLPLUS_CHECK_SIMPLE, hck])
      rw [← Except.error.inj h, h3.1]
      exact ⟨rfl, rfl⟩
    · simp only [ObjGenDelOps.Gen.loop, hck] at h
      exact ih _ _ _ h

theorem Delete_loop_error (d : Driver σ) (n i : Nat) (names : Nat → GLuint) (w : World σ)
    (e : Error) (h : (ObjGenDelOps.Delete.loop d n i names w).1 = Except.error e) :
    e.cls = ErrorClass.Error ∧ e.info = NoInfo.GLFunc GLFunc.DeleteProgram := by
  induction n generalizing i w with
  | zero => simp [ObjGenDelOps.Delete.loop] at h
  | succ n ih =>
    rcases hck : OGLPLUS_VERIFY_SIMPLE d GLFunc.DeleteProgram (glDeleteProgram d (names i) w)
      with ⟨e2 | u, w2⟩
    · simp only [ObjGenDelOps.Delete.loop, hck] at h
      have h3 := OGLPLUS_CHECK_error d GLFunc.DeleteProgram ErrorClass.Error NoInfo
        (glDeleteProgram d (names i) w) e2
        (by rw [← OGLPLUS_VERIFY, ← OGLPLUS_VERIFY_SIMPLE, hck])
      rw [← Except.error.inj h, h3.1]
      exact ⟨rfl, rfl⟩
    · simp only [ObjGenDelOps.Delete.loop, hck] at h
      exact ih _ _ h

end errors

/-- C3: whenever a wrapper raises, the error names the failing driver call and
carries the parameters given at the call site.  An error from
`GetIntParam(query)` names GetProgramiv and carries this program as object and
`query` as enum parameter; one from `Bind(program)` names UseProgram and
carries `program` as object; one from `BindLocation(slot, identifier)` names
BindAttribLocation and carries this program, the identifier and the numeric
value of the slot as index.  The code is the error state that was read.  The
other wrappers name CreateProgram, DeleteProgram, IsProgram, GetIntegerv and
GetProgramStageiv. -/
theorem errors_carry_context {σ : Type} (d : Driver σ) (w : World σ) (e : Error) :
    (∀ this query, (ProgramOps.GetIntParam d this query w).1 = Except.error e →
      e.info.glFunc = some GLFunc.GetProgramiv ∧ e.info.object = some this._name ∧
      e.info.enumParam = some query ∧ e.cls = ErrorClass.ObjectError ∧
      e.code = (d.GetError (d.GetProgramiv this._name query w.drv).2).1 ∧
      e.code ≠ GL_NO_ERROR) ∧
    (∀ program, (ObjBindingOps.Bind d program w).1 = Except.error e →
      e.info.glFunc = some GLFunc.UseProgram ∧ e.info.object = some program._name ∧
      e.cls = ErrorClass.ObjectError ∧
      e.code = (d.GetError (d.UseProgram program._name w.drv)).1 ∧ e.code ≠ GL_NO_ERROR) ∧
    (∀ this slot identifier,
      (ProgramOps.BindLocation d this slot identifier w).1 = Except.error e →
      e.info.glFunc = some GLFunc.BindAttribLocation ∧ e.info.program = some this._name ∧
      e.info.identifier = some identifier ∧ e.info.index = some slot.value ∧
      e.cls = ErrorClass.ProgVarError ∧
      e.code = (d.GetError (d.BindAttribLocation this._name slot.value identifier w.drv)).1 ∧
      e.code ≠ GL_NO_ERROR) ∧
    (∀ count names, (ObjGenDelOps.Gen d count names w).1 = Except.error e →
      e.info.glFunc = some GLFunc.CreateProgram) ∧
    (∀ count names, (ObjGenDelOps.Delete d count names w).1 = Except.error e →
      e.info.glFunc = some GLFunc.DeleteProgram) ∧
    (∀ name, (ObjGenDelOps.IsA d name w).1 = Except.error e →
      e.info.glFunc = some GLFunc.IsProgram) ∧
    ((ObjBindingOps.Binding d w).1 = Except.error e →
      e.info.glFunc = some GLFunc.GetIntegerv ∧ e.info.enumParam = some GL_CURRENT_PROGRAM) ∧
    (∀ this stage query, (ProgramOps.GetStageIntParam d this stage query w).1 = Except.error e →
      e.info.glFunc = some GLFunc.GetProgramStageiv ∧ e.info.object = some this._name ∧
      e.info.enumParam = some query) := by
  refine ⟨?_, ?_, ?_, ?_, ?_, ?_, ?_, ?_⟩
  · intro this query h
    have h1 := OGLPLUS_CHECK_error d _ _ _ _ e (pass_error _ _ e h)
    rw [h1.1]
    exact ⟨rfl, rfl, rfl, rfl, rfl, h1.2⟩
  · intro program h
    have h1 := OGLPLUS_CHECK_error d _ _ _ _ e h
    rw [h1.1]
    exact ⟨rfl, rfl, rfl, rfl, h1.2⟩
  · intro this slot identifier h
    have h1 := OGLPLUS_CHECK_error d _ _ _ _ e h
    rw [h1.1]
    exact ⟨rfl, rfl, rfl, rfl, rfl, rfl, h1.2⟩
  · intro count names h
    rw [(Gen_loop_error d _ _ names w e h).2]; rfl
  · intro count names h
    rw [(Delete_loop_error d _ _ names w e h).2]; rfl
  · intro name h
    have h1 := OGLPLUS_CHECK_error d _ _ _ _ e (pass_error _ _ e h)
    rw [h1.1]; rfl
  · intro h
    have hb : (ObjBindingOps._binding d w).1 = Except.error e := by
      unfold ObjBindingOps.Binding at h
      rcases hx : ObjBindingOps._binding d w with ⟨e2 | n, w2⟩ <;> simp_all
    have h1 := OGLPLUS_CHECK_error d _ _ _ _ e (pass_error _ _ e hb)
    rw [h1.1]
    exact ⟨rfl, rfl⟩
  · intro this stage query h
    have h1 := OGLPLUS_CHECK_error d _ _ _ _ e (pass_error _ _ e h)
    rw [h1.1]
    exact ⟨rfl, rfl, rfl⟩

/-- Witness of C3: binding slot 16 of program 7 to "Position" on the reference
driver raises, and the error carries the call name, the program, the
identifier and the index. -/
theorem errors_carry_context_witness :
    ∃ e : Error,
      (ProgramOps.BindLocation simDriver ⟨7⟩ ⟨16⟩ "Position" ⟨⟨8, 0, 0, 0⟩, []⟩).1 =
        Except.error e ∧
      e.info.glFunc = some GLFunc.BindAttribLocation ∧ e.info.program = some 7 ∧
      e.info.identifier = some "Position" ∧ e.info.index = some 16 ∧
      e.cls = ErrorClass.ProgVarError ∧
      e.code = (simDriver.GetError
        (simDriver.BindAttribLocation 7 16 "Position" ⟨8, 0, 0, 0⟩)).1 ∧
      e.code ≠ GL_NO_ERROR :=
  ⟨⟨ErrorClass.ProgVarError, GL_INVALID_VALUE,
      ⟨some GLFunc.BindAttribLocation, none, none, some 7, some "Position", some 16⟩⟩,
    rfl,
    (errors_carry_context simDriver ⟨⟨8, 0, 0, 0⟩, []⟩
      ⟨ErrorClass.ProgVarError, GL_INVALID_VALUE,
        ⟨some GLFunc.BindAttribLocation, none, none, some 7, some "Position", some 16⟩⟩).2.2.1
      ⟨7⟩ ⟨16⟩ "Position" rfl⟩

section gen
variable {σ : Type}

theorem Gen_loop_ok (d : Driver σ) (n i : Nat) (names : Nat → GLuint) (w : World σ)
    (h : (ObjGenDelOps.Gen.loop d n i names w).1 = Except.ok ()) :
    ∃ seg, (ObjGenDelOps.Gen.loop d n i names w).2.2.log = w.log ++ seg ∧
      d.replay w.drv seg = some (ObjGenDelOps.Gen.loop d n i names w).2.2.drv ∧
      (createRets seg).length = n ∧
      (∀ j, j < n →
        (createRets seg)[j]? = some ((ObjGenDelOps.Gen.loop d n i names w).2.1 (i + j))) ∧
      (∀ k, k < i ∨ i + n ≤ k → (ObjGenDelOps.Gen.loop d n i names w).2.1 k = names k) ∧
      (n = 0 → seg = []) := by
  induction n generalizing i names w with
  | zero =>
    exact ⟨[], by simp [ObjGenDelOps.Gen.loop], by simp [ObjGenDelOps.Gen.loop, Driver.replay],
      by simp [createRets], by simp, by simp [ObjGenDelOps.Gen.loop], by simp⟩
  | succ n ih =>
    rcases hck : OGLPLUS_CHECK_SIMPLE d GLFunc.CreateProgram (glCreateProgram d w).2 with
      ⟨e2 | u, w2⟩
    · simp [ObjGenDelOps.Gen.loop, hck] at h
    · simp only [ObjGenDelOps.Gen.loop, hck] at h ⊢
      obtain ⟨seg, hl, hp, hn, hv, hf, _⟩ := ih (i + 1) _ w2 h
      have hw2 : w2 = (glCreateProgram d w).2.step (d.GetError (glCreateProgram d w).2.drv).2
          (GLCall.GetError (d.GetError (glCreateProgram d w).2.drv).1) := by
        have := OGLPLUS_CHECK_snd d GLFunc.CreateProgram ErrorClass.Error NoInfo
          (glCreateProgram d w).2
        rw [← OGLPLUS_CHECK_SIMPLE, hck] at this
        exact this
      have he : (d.GetError (d.CreateProgram w.drv).2).1 = GL_NO_ERROR := by
        have := OGLPLUS_CHECK_fst d GLFunc.CreateProgram ErrorClass.Error NoInfo
          (glCreateProgram d w).2
        rw [← OGLPLUS_CHECK_SIMPLE, hck] at this
        by_contra hne
        simp [glCreateProgram, World.step, hne] at this
      refine ⟨GLCall.CreateProgram (d.CreateProgram w.drv).1 ::
        GLCall.GetError (d.GetError (d.CreateProgram w.drv).2).1 :: seg, ?_, ?_, ?_, ?_, ?_, ?_⟩
      · rw [hl, hw2]; simp [glCreateProgram, World.step]
      · rw [← hp, hw2]; simp [Driver.replay, glCreateProgram, World.step]
      · simp [createRets, hn]
      · intro j hj
        cases j with
        | zero =>
          have := hf i (Or.inl (Nat.lt_succ_self i))
          rw [Function.update_same] at this
          simp only [createRets, Nat.add_zero, List.getElem?_cons_zero]
          rw [this]
          rfl
        | succ j =>
          have := hv j (by omega)
          have e : i + 1 + j = i + (j + 1) := by omega
          rw [e] at this
          simpa [createRets] using this
      · intro k hk
        rw [hf k (by omega)]
        exact Function.update_noteq (by omega) _ _
      · intro h0; omega

end gen

/-- C4: when no driver error occurs (Gen returns normally), `Gen(count, names)`
makes exactly `max(count, 0)` calls of the driver's CreateProgram; for every
index `i` below `count`, `names[i]` is the value returned by the `i`-th call;
entries at indices from `count` on are unchanged; and for `count <= 0` no
driver call is made and nothing is written. -/
theorem Gen_creates_count_programs {σ : Type} (d : Driver σ) (count : GLsizei)
    (names : Nat → GLuint) (w : World σ)
    (h : (ObjGenDelOps.Gen d count names w).1 = Except.ok ()) :
    ∃ seg, (ObjGenDelOps.Gen d count names w).2.2.log = w.log ++ seg ∧
      d.replay w.drv seg = some (ObjGenDelOps.Gen d count names w).2.2.drv ∧
      ((createRets seg).length : Int) = max count 0 ∧
      (∀ i : Nat, (i : Int) < count →
        (createRets seg)[i]? = some ((ObjGenDelOps.Gen d count names w).2.1 i)) ∧
      (∀ i : Nat, count ≤ (i : Int) → (ObjGenDelOps.Gen d count names w).2.1 i = names i) ∧
      (count ≤ 0 → seg = [] ∧ (ObjGenDelOps.Gen d count names w).2.1 = names) := by
  obtain ⟨seg, hl, hp, hn, hv, hf, h0⟩ := Gen_loop_ok d count.toNat 0 names w h
  have hmax : (count.toNat : Int) = max count 0 := Int.toNat_eq_max count
  refine ⟨seg, hl, hp, ?_, ?_, ?_, ?_⟩
  · rw [hn]; exact hmax
  · intro i hi
    have := hv i (Int.lt_toNat.mpr hi)
    simpa using this
  · intro i hi
    exact hf i (Or.inr (by simpa using Int.toNat_le.mpr hi))
  · intro hc
    have hz : count.toNat = 0 := Int.toNat_eq_zero.mpr hc
    refine ⟨h0 hz, ?_⟩
    funext k
    exact hf k (Or.inr (by simp [hz]))

/-- Witness of C4: three programs generated on the reference driver. -/
theorem Gen_creates_count_programs_witness :
    ∃ seg, (ObjGenDelOps.Gen simDriver 3 (fun _ => 9) ⟨⟨5, 0, 0, 0⟩, []⟩).2.2.log = [] ++ seg ∧
      simDriver.replay ⟨5, 0, 0, 0⟩ seg =
        some (ObjGenDelOps.Gen simDriver 3 (fun _ => 9) ⟨⟨5, 0, 0, 0⟩, []⟩).2.2.drv ∧
      ((createRets seg).length : Int) = max 3 0 ∧
      (∀ i : Nat, (i : Int) < 3 → (createRets seg)[i]? =
        some ((ObjGenDelOps.Gen simDriver 3 (fun _ => 9) ⟨⟨5, 0, 0, 0⟩, []⟩).2.1 i)) ∧
      (∀ i : Nat, (3 : Int) ≤ (i : Int) →
        (ObjGenDelOps.Gen simDriver 3 (fun _ => 9) ⟨⟨5, 0, 0, 0⟩, []⟩).2.1 i = 9) ∧
      ((3 : Int) ≤ 0 → seg = [] ∧
        (ObjGenDelOps.Gen simDriver 3 (fun _ => 9) ⟨⟨5, 0, 0, 0⟩, []⟩).2.1 = fun _ => 9) :=
  Gen_creates_count_programs simDriver 3 (fun _ => 9) ⟨⟨5, 0, 0, 0⟩, []⟩ rfl

section handles
variable {σ : Type}

theorem Gen_loop_nonzero (d : Driver σ)
    (hd : ∀ s, (d.CreateProgram s).1 = 0 → (d.GetError (d.CreateProgram s).2).1 ≠ GL_NO_ERROR)
    (n i : Nat) (names : Nat → GLuint) (w : World σ)
    (h : (ObjGenDelOps.Gen.loop d n i names w).1 = Except.ok ()) :
    ∀ j, j < n → (ObjGenDelOps.Gen.loop d n i names w).2.1 (i + j) ≠ 0 := by
  induction n generalizing i names w with
  | zero => intro j hj; omega
  | succ n ih =>
    rcases hck : OGLPLUS_CHECK_SIMPLE d GLFunc.CreateProgram (glCreateProgram d w).2 with
      ⟨e2 | u, w2⟩
    · simp [ObjGenDelOps.Gen.loop, hck] at h
    · simp only [ObjGenDelOps.Gen.loop, hck] at h ⊢
      have he : (d.GetError (d.CreateProgram w.drv).2).1 = GL_NO_ERROR := by
        have := OGLPLUS_CHECK_fst d GLFunc.CreateProgram ErrorClass.Error NoInfo
          (glCreateProgram d w).2
        rw [← OGLPLUS_CHECK_SIMPLE, hck] at this
        by_contra hne
        simp [glCreateProgram, World.step, hne] at this
      have hr : (d.CreateProgram w.drv).1 ≠ 0 := fun h0 => hd w.drv h0 he
      obtain ⟨seg, _, _, _, _, hf, _⟩ := Gen_loop_ok d n (i + 1) _ w2 h
      intro j hj
      cases j with
      | zero =>
        have := hf i (Or.inl (Nat.lt_succ_self i))
        rw [Function.update_same] at this
        show (ObjGenDelOps.Gen.loop d n (i + 1)
          (Function.update names i (glCreateProgram d w).1) w2).2.1 i ≠ 0
        rw [this]
        exact hr
      | succ j =>
        have := ih (i + 1) _ w2 h j (by omega)
        have e : i + 1 + j = i + (j + 1) := by omega
        rw [e] at this
        exact this

end handles

/-- C5, as stated, fails: on the reference driver `CreateProgram` returns 0 with the
error state clear, and `Gen(1, names)` returns normally with `names[0] = 0`. -/
theorem Gen_stores_zero_handle :
    (simDriver.GetError (simDriver.CreateProgram ⟨0, 0, 0, 0⟩).2).1 = GL_NO_ERROR ∧
    (ObjGenDelOps.Gen simDriver 1 (fun _ => 9) ⟨⟨0, 0, 0, 0⟩, []⟩).1 = Except.ok () ∧
    (ObjGenDelOps.Gen simDriver 1 (fun _ => 9) ⟨⟨0, 0, 0, 0⟩, []⟩).2.1 0 = 0 :=
  ⟨rfl, rfl, rfl⟩

/-- C5, amended: Gen does not test the handle itself; every handle it stores on a
normal return is non-zero for every count and every driver in which
`CreateProgram` returns 0 only with the error state set. -/
theorem Gen_handles_nonzero {σ : Type} (d : Driver σ)
    (hd : ∀ s, (d.CreateProgram s).1 = 0 → (d.GetError (d.CreateProgram s).2).1 ≠ GL_NO_ERROR)
    (count : GLsizei) (names : Nat → GLuint) (w : World σ)
    (h : (ObjGenDelOps.Gen d count names w).1 = Except.ok ()) :
    ∀ i : Nat, (i : Int) < count → (ObjGenDelOps.Gen d count names w).2.1 i ≠ 0 := by
  intro i hi
  have := Gen_loop_nonzero d hd count.toNat 0 names w h i (Int.lt_toNat.mpr hi)
  simpa using this

/-- Witness of C5 (amended): two programs generated on the strict reference driver. -/
theorem Gen_handles_nonzero_witness :
    (∀ s, (strictDriver.CreateProgram s).1 = 0 →
      (strictDriver.GetError (strictDriver.CreateProgram s).2).1 ≠ GL_NO_ERROR) ∧
    (ObjGenDelOps.Gen strictDriver 2 (fun _ => 0) ⟨⟨5, 0, 0, 0⟩, []⟩).1 = Except.ok () ∧
    ∀ i : Nat, (i : Int) < 2 →
      (ObjGenDelOps.Gen strictDriver 2 (fun _ => 0) ⟨⟨5, 0, 0, 0⟩, []⟩).2.1 i ≠ 0 :=
  have hd : ∀ s, (strictDriver.CreateProgram s).1 = 0 →
      (strictDriver.GetError (strictDriver.CreateProgram s).2).1 ≠ GL_NO_ERROR := by
    intro s h0
    have h1 : s.fresh = 0 := h0
    simp [strictDriver, simDriver, h1, GL_INVALID_OPERATION, GL_NO_ERROR]
  ⟨hd, rfl, Gen_handles_nonzero strictDriver hd 2 (fun _ => 0) ⟨⟨5, 0, 0, 0⟩, []⟩ rfl⟩

section binding
variable {σ : Type}

/-- A 32-bit name survives the passage through a signed `GLint`. -/
theorem toGLuint_toGLint (p : GLuint) (hp : p < 2 ^ 32) : toGLuint (toGLint p) = p := by
  unfold toGLuint toGLint
  have hm : p % 2 ^ 32 = p := Nat.mod_eq_of_lt hp
  have hp2 : ((p : Nat) : Int) < 4294967296 := by exact_mod_cast hp
  have hp0 : (0 : Int) ≤ ((p : Nat) : Int) := Int.natCast_nonneg p
  rw [hm]
  by_cases h : p < 2 ^ 31
  · rw [if_pos h]
    have : (((p : Nat) : Int) % (2 ^ 32 : Int)) = ((p : Nat) : Int) := by omega
    rw [this]
    exact Int.toNat_natCast p
  · rw [if_neg h]
    have : ((((p : Nat) : Int) - 2 ^ 32) % (2 ^ 32 : Int)) = ((p : Nat) : Int) := by omega
    rw [this]
    exact Int.toNat_natCast p

theorem Bind_fst (d : Driver σ) (program : ProgramName) (w : World σ) :
    (ObjBindingOps.Bind d program w).1 =
      if (d.GetError (d.UseProgram program._name w.drv)).1 = GL_NO_ERROR then Except.ok ()
      else Except.error ⟨ErrorClass.ObjectError,
        (d.GetError (d.UseProgram program._name w.drv)).1,
        (NoInfo.Object (GetGLName program)).GLFunc GLFunc.UseProgram⟩ := by
  unfold ObjBindingOps.Bind OGLPLUS_VERIFY
  rw [OGLPLUS_CHECK_fst]
  rfl

theorem Bind_snd (d : Driver σ) (program : ProgramName) (w : World σ) :
    (ObjBindingOps.Bind d program w).2 =
      ⟨(d.GetError (d.UseProgram program._name w.drv)).2,
        w.log ++ [GLCall.UseProgram program._name,
          GLCall.GetError (d.GetError (d.UseProgram program._name w.drv)).1]⟩ := by
  unfold ObjBindingOps.Bind OGLPLUS_VERIFY
  rw [OGLPLUS_CHECK_snd]
  simp [glUseProgram, World.step, GetGLName]

theorem Binding_fst (d : Driver σ) (w : World σ) :
    (ObjBindingOps.Binding d w).1 =
      if (d.GetError (d.GetIntegerv GL_CURRENT_PROGRAM w.drv).2).1 = GL_NO_ERROR then
        Except.ok (ProgramName.mk (toGLuint (d.GetIntegerv GL_CURRENT_PROGRAM w.drv).1))
      else Except.error ⟨ErrorClass.Error,
        (d.GetError (d.GetIntegerv GL_CURRENT_PROGRAM w.drv).2).1,
        (NoInfo.EnumParam GL_CURRENT_PROGRAM).GLFunc GLFunc.GetIntegerv⟩ := by
  unfold ObjBindingOps.Binding ObjBindingOps._binding OGLPLUS_VERIFY OGLPLUS_CHECK glGetError
    glGetIntegerv
  by_cases h : (d.GetError (d.GetIntegerv GL_CURRENT_PROGRAM w.drv).2).1 = GL_NO_ERROR <;>
    simp [h, World.step]

end binding

/-- C6: over a driver in which `UseProgram(p)` makes `p` the current program,
reading the error state leaves the current program alone, and
`GetIntegerv(GL_CURRENT_PROGRAM)` reports the current program as a signed
32-bit integer, `Bind(p)` immediately followed by `Binding()`, with no error
found by either, returns the program name `p`, for every 32-bit `p` (also
for `p >= 2^31`, which the driver reports as a negative `GLint`). -/
theorem Binding_after_Bind {σ : Type} (d : Driver σ) (current : σ → GLuint)
    (hUse : ∀ n s, current (d.UseProgram n s) = n)
    (hErr : ∀ s, current (d.GetError s).2 = current s)
    (hGet : ∀ s, (d.GetIntegerv GL_CURRENT_PROGRAM s).1 = toGLint (current s))
    (p : GLuint) (hp : p < 2 ^ 32) (w : World σ)
    (h1 : (d.GetError (d.UseProgram p w.drv)).1 = GL_NO_ERROR)
    (h2 : (d.GetError (d.GetIntegerv GL_CURRENT_PROGRAM
      (ObjBindingOps.Bind d ⟨p⟩ w).2.drv).2).1 = GL_NO_ERROR) :
    (ObjBindingOps.Bind d ⟨p⟩ w).1 = Except.ok () ∧
    (ObjBindingOps.Binding d (ObjBindingOps.Bind d ⟨p⟩ w).2).1 = Except.ok ⟨p⟩ := by
  constructor
  · rw [Bind_fst]; simp [h1]
  · rw [Binding_fst, if_pos h2, hGet, Bind_snd]
    simp only
    rw [hErr, hUse, toGLuint_toGLint p hp]

/-- Witness of C6: the largest 32-bit name on the reference driver. -/
theorem Binding_after_Bind_witness :
    (ObjBindingOps.Bind simDriver ⟨4294967295⟩ ⟨⟨1, 0, 0, 0⟩, []⟩).1 = Except.ok () ∧
    (ObjBindingOps.Binding simDriver
      (ObjBindingOps.Bind simDriver ⟨4294967295⟩ ⟨⟨1, 0, 0, 0⟩, []⟩).2).1 =
      Except.ok ⟨4294967295⟩ :=
  Binding_after_Bind simDriver Sim.current (fun _ _ => rfl) (fun _ => rfl)
    (fun s => by simp [simDriver]) 4294967295 (by norm_num) ⟨⟨1, 0, 0, 0⟩, []⟩ rfl rfl

/-- C7: the constructor `QuickProgram(shaders)` invokes `AttachShaders(shaders)`,
then `Link()`, then `Use()`, in that order and each once; when `AttachShaders`
or `Link` raises no later step is performed, so `Use()` is invoked exactly when
both returned normally; the constructor raises exactly when one of the three
does, and leaves the world of the last step performed. -/
theorem QuickProgram_attach_link_use {σ : Type} (d : Driver σ) (ipp : ProgramIpp σ)
    (this : ProgramName) (shaders : List ShaderName) (w : World σ) (ms : List Member) :
    (QuickProgram d ipp this shaders (w, ms)).2.2 =
      ms ++ Member.AttachShaders shaders ::
        (if raised (ipp.AttachShaders this shaders w).1 then []
         else Member.Link ::
          (if raised (ipp.Link this (ipp.AttachShaders this shaders w).2).1 then []
           else [Member.Use])) ∧
    (Member.Use ∈ ((QuickProgram d ipp this shaders (w, ms)).2.2).drop ms.length ↔
      raised (ipp.AttachShaders this shaders w).1 = false ∧
      raised (ipp.Link this (ipp.AttachShaders this shaders w).2).1 = false) ∧
    raised (QuickProgram d ipp this shaders (w, ms)).1 =
      (raised (ipp.AttachShaders this shaders w).1 ||
       raised (ipp.Link this (ipp.AttachShaders this shaders w).2).1 ||
       raised (ObjCommonOps.Use d this
        (ipp.Link this (ipp.AttachShaders this shaders w).2).2).1) ∧
    (QuickProgram d ipp this shaders (w, ms)).2.1 =
      (if raised (ipp.AttachShaders this shaders w).1 then (ipp.AttachShaders this shaders w).2
       else if raised (ipp.Link this (ipp.AttachShaders this shaders w).2).1 then
        (ipp.Link this (ipp.AttachShaders this shaders w).2).2
       else (ObjCommonOps.Use d this
        (ipp.Link this (ipp.AttachShaders this shaders w).2).2).2) := by
  unfold QuickProgram
  rcases ha : ipp.AttachShaders this shaders w with ⟨e | u, w1⟩
  · simp [Stmt.seq, Stmt.invoke, raised, ha]
  · rcases hl : ipp.Link this w1 with ⟨e | u2, w2⟩
    · simp [Stmt.seq, Stmt.invoke, raised, ha, hl]
    · simp [Stmt.seq, Stmt.invoke, raised, ha, hl]

/-- C8, as stated, fails: with `separable = true` and an `AttachShaders` that raises
(a zero shader name on the reference bodies) the constructor invokes
`AttachShaders` only; `MakeSeparable()` is not called. -/
theorem QuickProgramSeparable_without_MakeSeparable :
    (QuickProgramSeparable simDriver simIpp ⟨1⟩ true [⟨0⟩] (⟨⟨2, 0, 0, 1⟩, []⟩, [])).2.2 =
      [Member.AttachShaders [⟨0⟩]] ∧
    Member.MakeSeparable true ∉
      (QuickProgramSeparable simDriver simIpp ⟨1⟩ true [⟨0⟩] (⟨⟨2, 0, 0, 1⟩, []⟩, [])).2.2 := by
  have h : (QuickProgramSeparable simDriver simIpp ⟨1⟩ true [⟨0⟩]
      (⟨⟨2, 0, 0, 1⟩, []⟩, [])).2.2 = [Member.AttachShaders [⟨0⟩]] := rfl
  refine ⟨h, ?_⟩
  rw [h]
  decide

/-- C8, amended: the constructor `QuickProgram(separable, shaders)` calls
`MakeSeparable()` if and only if `separable` is true and `AttachShaders(shaders)`
returned normally; when it is called it comes after `AttachShaders(shaders)` and
before `Link()`; and with `separable = false` the constructor is the same
sequence of operations as `QuickProgram(shaders)`. -/
theorem QuickProgramSeparable_steps {σ : Type} (d : Driver σ) (ipp : ProgramIpp σ)
    (this : ProgramName) (separable : Bool) (shaders : List ShaderName) (w : World σ)
    (ms : List Member) :
    (QuickProgramSeparable d ipp this separable shaders (w, ms)).2.2 =
      ms ++ Member.AttachShaders shaders ::
        (if raised (ipp.AttachShaders this shaders w).1 then []
         else if separable then
          Member.MakeSeparable true ::
            (if raised (ipp.MakeSeparable this true (ipp.AttachShaders this shaders w).2).1
             then []
             else Member.Link ::
              (if raised (ipp.Link this
                  (ipp.MakeSeparable this true (ipp.AttachShaders this shaders w).2).2).1
               then [] else [Member.Use]))
         else Member.Link ::
          (if raised (ipp.Link this (ipp.AttachShaders this shaders w).2).1 then []
           else [Member.Use])) ∧
    (∀ para, Member.MakeSeparable para ∈
        ((QuickProgramSeparable d ipp this separable shaders (w, ms)).2.2).drop ms.length ↔
      separable = true ∧ raised (ipp.AttachShaders this shaders w).1 = false ∧ para = true) ∧
    QuickProgramSeparable d ipp this false shaders = QuickProgram d ipp this shaders := by
  refine ⟨?_, ?_, ?_⟩
  · unfold QuickProgramSeparable
    rcases ha : ipp.AttachShaders this shaders w with ⟨e | u, w1⟩
    · simp [Stmt.seq, Stmt.invoke, raised, ha]
    · cases separable
      · rcases hl : ipp.Link this w1 with ⟨e | u2, w2⟩ <;>
          simp [Stmt.seq, Stmt.invoke, Stmt.skip, raised, ha, hl]
      · rcases hm : ipp.MakeSeparable this true w1 with ⟨e | u3, w3⟩
        · simp [Stmt.seq, Stmt.invoke, raised, ha, hm]
        · rcases hl : ipp.Link this w3 with ⟨e | u2, w2⟩ <;>
            simp [Stmt.seq, Stmt.invoke, raised, ha, hm, hl]
  · intro para
    unfold QuickProgramSeparable
    rcases ha : ipp.AttachShaders this shaders w with ⟨e | u, w1⟩
    · simp [Stmt.seq, Stmt.invoke, raised, ha]
    · cases separable
      · rcases hl : ipp.Link this w1 with ⟨e | u2, w2⟩ <;>
          simp [Stmt.seq, Stmt.invoke, Stmt.skip, raised, ha, hl]
      · rcases hm : ipp.MakeSeparable this true w1 with ⟨e | u3, w3⟩
        · simp [Stmt.seq, Stmt.invoke, raised, ha, hm, eq_comm]
        · rcases hl : ipp.Link this w3 with ⟨e | u2, w2⟩ <;>
            simp [Stmt.seq, Stmt.invoke, raised, ha, hm, hl, eq_comm]
  · funext st
    unfold QuickProgramSeparable QuickProgram
    rcases ha : ipp.AttachShaders this shaders st.1 with ⟨e | u, w1⟩
    · simp [Stmt.seq, Stmt.invoke, ha]
    · simp [Stmt.seq, Stmt.invoke, Stmt.skip, ha]

/-- C9: for every program object and every world, the member functions `Bind()` and
`Use()` are the same operation: each makes exactly one UseProgram driver call,
with this object's own name, followed by the read of the error state, and they
leave the same driver state, trace and outcome. -/
theorem Bind_Use_equivalent {σ : Type} (d : Driver σ) (this : ProgramName) (w : World σ) :
    ObjCommonOps.Bind d this w = ObjCommonOps.Use d this w ∧
    (ObjCommonOps.Bind d this w).2.log =
      w.log ++ [GLCall.UseProgram this._name,
        GLCall.GetError (d.GetError (d.UseProgram this._name w.drv)).1] ∧
    (ObjCommonOps.Use d this w).2.log =
      w.log ++ [GLCall.UseProgram this._name,
        GLCall.GetError (d.GetError (d.UseProgram this._name w.drv)).1] ∧
    useArgs (((ObjCommonOps.Bind d this w).2.log).drop w.log.length) = [this._name] ∧
    useArgs (((ObjCommonOps.Use d this w).2.log).drop w.log.length) = [this._name] ∧
    (ObjCommonOps.Use d this w).2.drv = (d.GetError (d.UseProgram this._name w.drv)).2 ∧
    raised (ObjCommonOps.Use d this w).1 =
      decide ((d.GetError (d.UseProgram this._name w.drv)).1 ≠ GL_NO_ERROR) := by
  have hl : (ObjCommonOps.Use d this w).2.log =
      w.log ++ [GLCall.UseProgram this._name,
        GLCall.GetError (d.GetError (d.UseProgram this._name w.drv)).1] := by
    unfold ObjCommonOps.Use
    rw [Bind_snd]
  have hu : useArgs (((ObjCommonOps.Use d this w).2.log).drop w.log.length) = [this._name] := by
    rw [hl]
    simp [useArgs]
  refine ⟨rfl, hl, hl, hu, hu, ?_, ?_⟩
  · unfold ObjCommonOps.Use
    rw [Bind_snd]
  · unfold ObjCommonOps.Use
    rw [Bind_fst]
    by_cases h : (d.GetError (d.UseProgram this._name w.drv)).1 = GL_NO_ERROR <;>
      simp [h, raised]

section delete
variable {σ : Type}

theorem Delete_loop_calls (d : Driver σ) (n i : Nat) (names : Nat → GLuint) (w : World σ) :
    ∃ seg k, (ObjGenDelOps.Delete.loop d n i names w).2.2.log = w.log ++ seg ∧ k ≤ n ∧
      deleteArgs seg = (List.range k).map (fun j => names (i + j)) ∧
      ((ObjGenDelOps.Delete.loop d n i names w).1 = Except.ok () → k = n) ∧
      (ObjGenDelOps.Delete.loop d n i names w).2.1 = names ∧
      (n = 0 → seg = []) := by
  induction n generalizing i w with
  | zero => exact ⟨[], 0, by simp [ObjGenDelOps.Delete.loop], le_refl 0, by simp [deleteArgs],
      fun _ => rfl, by simp [ObjGenDelOps.Delete.loop], fun _ => rfl⟩
  | succ n ih =>
    have hsnd := OGLPLUS_CHECK_snd d GLFunc.DeleteProgram ErrorClass.Error NoInfo
      (glDeleteProgram d (names i) w)
    rcases hck : OGLPLUS_VERIFY_SIMPLE d GLFunc.DeleteProgram (glDeleteProgram d (names i) w)
      with ⟨e | u, w2⟩
    · have hloop : ObjGenDelOps.Delete.loop d (n + 1) i names w = (Except.error e, names, w2) := by
        simp only [ObjGenDelOps.Delete.loop, hck]
      rw [hloop]
      rw [← OGLPLUS_VERIFY, ← OGLPLUS_VERIFY_SIMPLE, hck] at hsnd
      simp only at hsnd
      refine ⟨[GLCall.DeleteProgram (names i),
        GLCall.GetError (d.GetError (d.DeleteProgram (names i) w.drv)).1], 1, ?_, by omega, ?_,
        ?_, rfl, ?_⟩
      · rw [hsnd]; simp [glDeleteProgram, World.step]
      · simp [deleteArgs, List.range_succ_eq_map]
      · intro h; simp at h
      · intro h; omega
    · have hloop : ObjGenDelOps.Delete.loop d (n + 1) i names w =
          ObjGenDelOps.Delete.loop d n (i + 1) names w2 := by
        simp only [ObjGenDelOps.Delete.loop, hck]
      rw [hloop]
      rw [← OGLPLUS_VERIFY, ← OGLPLUS_VERIFY_SIMPLE, hck] at hsnd
      simp only at hsnd
      obtain ⟨seg, k, hl, hk, hd, hok, hnm, _⟩ := ih (i + 1) w2
      refine ⟨GLCall.DeleteProgram (names i) ::
        GLCall.GetError (d.GetError (d.DeleteProgram (names i) w.drv)).1 :: seg, k + 1, ?_,
        by omega, ?_, ?_, hnm, ?_⟩
      · rw [hl, hsnd]; simp [glDeleteProgram, World.step]
      · simp only [deleteArgs, hd, List.range_succ_eq_map, List.map_cons, List.map_map,
          Nat.add_zero]
        congr 1
        apply List.map_congr_left
        intro j _
        simp only [Function.comp]
        congr 1
        omega
      · intro h; rw [hok h]
      · intro h; omega

end delete

/-- C10, as stated, fails: on the reference driver with names 1 and 2 handed out,
`Delete(2, names)` for `names = [7, 1]` calls `DeleteProgram(7)`, finds the
error state set, and raises without ever calling `DeleteProgram(1)`. -/
theorem Delete_stops_at_first_error :
    deleteArgs (ObjGenDelOps.Delete simDriver 2 (fun i => if i = 0 then 7 else 1)
      ⟨⟨3, 0, 0, 0⟩, []⟩).2.2.log = [7] ∧
    raised (ObjGenDelOps.Delete simDriver 2 (fun i => if i = 0 then 7 else 1)
      ⟨⟨3, 0, 0, 0⟩, []⟩).1 = true := by
  constructor
  · decide
  · rfl

/-- C10, amended: `Delete(count, names)` calls the driver's DeleteProgram for
`names[0]`, `names[1]`, ... in increasing index order, once each, and stops at
the first call after which the error state is found set (it then raises); when
it returns normally the calls are exactly those for `names[0..count-1]`; it
makes no call for `count <= 0`; and it does not modify any element of `names`. -/
theorem Delete_calls_in_order {σ : Type} (d : Driver σ) (count : GLsizei)
    (names : Nat → GLuint) (w : World σ) :
    ∃ seg, ∃ k : Nat, (ObjGenDelOps.Delete d count names w).2.2.log = w.log ++ seg ∧
      (k : Int) ≤ max count 0 ∧
      deleteArgs seg = (List.range k).map names ∧
      ((ObjGenDelOps.Delete d count names w).1 = Except.ok () → (k : Int) = max count 0) ∧
      checkedRun seg = true ∧
      raised (ObjGenDelOps.Delete d count names w).1 = errorSeen seg ∧
      (ObjGenDelOps.Delete d count names w).2.1 = names ∧
      (count ≤ 0 → seg = []) := by
  obtain ⟨seg, k, hl, hk, hd, hok, hnm, h0⟩ := Delete_loop_calls d count.toNat 0 names w
  obtain ⟨seg2, hl2, _, hc, hr⟩ := Delete_loop_checks d count.toNat 0 names w
  have hmax : (count.toNat : Int) = max count 0 := Int.toNat_eq_max count
  have hseg : seg2 = seg := by
    have : w.log ++ seg2 = w.log ++ seg := by rw [← hl2, ← hl]
    exact List.append_cancel_left this
  subst hseg
  refine ⟨seg2, k, hl, ?_, ?_, ?_, hc, hr, hnm, ?_⟩
  · rw [← hmax]; exact_mod_cast hk
  · simpa using hd
  · intro h; rw [← hmax, hok h]
  · intro hc0; exact h0 (Int.toNat_eq_zero.mpr hc0)

/-- Witness of C10 (amended): two valid names deleted on the reference driver. -/
theorem Delete_calls_in_order_witness :
    (ObjGenDelOps.Delete simDriver 2 (fun i => i + 1) ⟨⟨3, 0, 0, 0⟩, []⟩).1 = Except.ok () ∧
    deleteArgs (ObjGenDelOps.Delete simDriver 2 (fun i => i + 1) ⟨⟨3, 0, 0, 0⟩, []⟩).2.2.log
      = [1, 2] ∧
    ∃ seg, ∃ k : Nat,
      (ObjGenDelOps.Delete simDriver 2 (fun i => i + 1) ⟨⟨3, 0, 0, 0⟩, []⟩).2.2.log =
        [] ++ seg ∧
      (k : Int) ≤ max 2 0 ∧
      deleteArgs seg = (List.range k).map (fun i => i + 1) ∧
      ((ObjGenDelOps.Delete simDriver 2 (fun i => i + 1) ⟨⟨3, 0, 0, 0⟩, []⟩).1 = Except.ok () →
        (k : Int) = max 2 0) ∧
      checkedRun seg = true ∧
      raised (ObjGenDelOps.Delete simDriver 2 (fun i => i + 1) ⟨⟨3, 0, 0, 0⟩, []⟩).1 =
        errorSeen seg ∧
      (ObjGenDelOps.Delete simDriver 2 (fun i => i + 1) ⟨⟨3, 0, 0, 0⟩, []⟩).2.1 =
        (fun i => i + 1) ∧
      ((2 : Int) ≤ 0 → seg = []) :=
  ⟨rfl, by decide,
    Delete_calls_in_order simDriver 2 (fun i => i + 1) ⟨⟨3, 0, 0, 0⟩, []⟩⟩

section genraise
variable {σ : Type}

theorem Gen_loop_raises (d : Driver σ) (i : Nat) :
    ∀ (n i0 : Nat) (names : Nat → GLuint) (w : World σ), i < n →
      (∀ j, j < i → errorAfterCreate d w.drv j = GL_NO_ERROR) →
      errorAfterCreate d w.drv i ≠ GL_NO_ERROR →
      raised (ObjGenDelOps.Gen.loop d n i0 names w).1 = true ∧
      ∃ seg, (ObjGenDelOps.Gen.loop d n i0 names w).2.2.log = w.log ++ seg ∧
        createRets seg = (List.range (i + 1)).map (createdAt d w.drv) ∧
        deleteArgs seg = [] ∧
        seg.length = 2 * (i + 1) ∧
        (∀ j, j ≤ i →
          (ObjGenDelOps.Gen.loop d n i0 names w).2.1 (i0 + j) = createdAt d w.drv j) ∧
        (∀ k, k < i0 ∨ i0 + i < k →
          (ObjGenDelOps.Gen.loop d n i0 names w).2.1 k = names k) ∧
        (ObjGenDelOps.Gen.loop d n i0 names w).2.2.drv =
          (d.GetError (d.CreateProgram (createRounds d i w.drv)).2).2 := by
  induction i with
  | zero =>
    intro n i0 names w hn _ hset
    obtain ⟨m, rfl⟩ : ∃ m, n = m + 1 := ⟨n - 1, by omega⟩
    have hfst := OGLPLUS_CHECK_fst d GLFunc.CreateProgram ErrorClass.Error NoInfo
      (glCreateProgram d w).2
    have hsnd := OGLPLUS_CHECK_snd d GLFunc.CreateProgram ErrorClass.Error NoInfo
      (glCreateProgram d w).2
    have hne : (d.GetError (d.CreateProgram w.drv).2).1 ≠ GL_NO_ERROR := hset
    rcases hck : OGLPLUS_CHECK_SIMPLE d GLFunc.CreateProgram (glCreateProgram d w).2 with
      ⟨e | u, w2⟩
    · have hloop : ObjGenDelOps.Gen.loop d (m + 1) i0 names w =
          (Except.error e, Function.update names i0 (glCreateProgram d w).1, w2) := by
        simp only [ObjGenDelOps.Gen.loop, hck]
      rw [← OGLPLUS_CHECK_SIMPLE, hck] at hsnd
      simp only at hsnd
      rw [hloop]
      refine ⟨rfl, [GLCall.CreateProgram (d.CreateProgram w.drv).1,
        GLCall.GetError (d.GetError (d.CreateProgram w.drv).2).1], ?_, ?_, ?_, ?_, ?_, ?_, ?_⟩
      · rw [hsnd]; simp [glCreateProgram, World.step]
      · simp [createRets, createdAt, createRounds, List.range_succ_eq_map]
      · simp [deleteArgs]
      · simp
      · intro j hj
        have hj0 : j = 0 := by omega
        subst hj0
        show Function.update names i0 (glCreateProgram d w).1 (i0 + 0) = _
        rw [Nat.add_zero, Function.update_same]
        rfl
      · intro k hk
        exact Function.update_noteq (by omega) _ _
      · rw [hsnd]; simp [glCreateProgram, World.step, createRounds]
    · rw [← OGLPLUS_CHECK_SIMPLE, hck] at hfst
      simp [glCreateProgram, World.step, hne] at hfst
  | succ i ih =>
    intro n i0 names w hn hclear hset
    obtain ⟨m, rfl⟩ : ∃ m, n = m + 1 := ⟨n - 1, by omega⟩
    have hfst := OGLPLUS_CHECK_fst d GLFunc.CreateProgram ErrorClass.Error NoInfo
      (glCreateProgram d w).2
    have hsnd := OGLPLUS_CHECK_snd d GLFunc.CreateProgram ErrorClass.Error NoInfo
      (glCreateProgram d w).2
    have h0 : (d.GetError (d.CreateProgram w.drv).2).1 = GL_NO_ERROR :=
      hclear 0 (Nat.succ_pos i)
    rcases hck : OGLPLUS_CHECK_SIMPLE d GLFunc.CreateProgram (glCreateProgram d w).2 with
      ⟨e | u, w2⟩
    · rw [← OGLPLUS_CHECK_SIMPLE, hck] at hfst
      simp [glCreateProgram, World.step, h0] at hfst
    · have hloop : ObjGenDelOps.Gen.loop d (m + 1) i0 names w =
          ObjGenDelOps.Gen.loop d m (i0 + 1)
            (Function.update names i0 (glCreateProgram d w).1) w2 := by
        simp only [ObjGenDelOps.Gen.loop, hck]
      rw [← OGLPLUS_CHECK_SIMPLE, hck] at hsnd
      simp only at hsnd
      have hdrv : w2.drv = (d.GetError (d.CreateProgram w.drv).2).2 := by
        rw [hsnd]; simp [glCreateProgram, World.step]
      have hshiftE : ∀ j, errorAfterCreate d w2.drv j = errorAfterCreate d w.drv (j + 1) := by
        intro j; rw [hdrv]; rfl
      have hshiftC : ∀ j, createdAt d w2.drv j = createdAt d w.drv (j + 1) := by
        intro j; rw [hdrv]; rfl
      obtain ⟨hr, seg, hl, hc, hdel, hlen, hv, hf, hfin⟩ :=
        ih m (i0 + 1) (Function.update names i0 (glCreateProgram d w).1) w2 (by omega)
          (fun j hj => by rw [hshiftE]; exact hclear (j + 1) (by omega))
          (by rw [hshiftE]; exact hset)
      rw [hloop]
      refine ⟨hr, GLCall.CreateProgram (d.CreateProgram w.drv).1 ::
        GLCall.GetError (d.GetError (d.CreateProgram w.drv).2).1 :: seg, ?_, ?_, ?_, ?_, ?_, ?_,
        ?_⟩
      · rw [hl, hsnd]; simp [glCreateProgram, World.step]
      · rw [List.range_succ_eq_map]
        simp only [createRets, hc, List.map_cons, List.map_map]
        congr 1
        apply List.map_congr_left
        intro j _
        exact hshiftC j
      · simpa [deleteArgs] using hdel
      · simp [hlen]; omega
      · intro j hj
        cases j with
        | zero =>
          have := hf i0 (Or.inl (Nat.lt_succ_self i0))
          rw [Function.update_same] at this
          show (ObjGenDelOps.Gen.loop d m (i0 + 1)
            (Function.update names i0 (glCreateProgram d w).1) w2).2.1 i0 = _
          rw [this]
          rfl
        | succ j =>
          have := hv j (by omega)
          rw [hshiftC] at this
          have e2 : i0 + 1 + j = i0 + (j + 1) := by omega
          rw [e2] at this
          exact this
      · intro k hk
        rw [hf k (by omega)]
        exact Function.update_noteq (by omega) _ _
      · rw [hfin, hdrv]; rfl

end genraise

/-- C11: if during `Gen(count, names)` the driver's error state is first found set
after the CreateProgram call with 0-based index `i` (`i < count`), then Gen
raises having made exactly `i + 1` CreateProgram calls: `names[0..i]` hold the
values returned so far (the result of the failing call included), every entry
after index `i` is unchanged, no further driver call is made after the failing
read, and no DeleteProgram call is made. -/
theorem Gen_raises_at_first_error {σ : Type} (d : Driver σ) (count : GLsizei)
    (names : Nat → GLuint) (w : World σ) (i : Nat) (hi : (i : Int) < count)
    (hclear : ∀ j, j < i → errorAfterCreate d w.drv j = GL_NO_ERROR)
    (hset : errorAfterCreate d w.drv i ≠ GL_NO_ERROR) :
    raised (ObjGenDelOps.Gen d count names w).1 = true ∧
    ∃ seg, (ObjGenDelOps.Gen d count names w).2.2.log = w.log ++ seg ∧
      createRets seg = (List.range (i + 1)).map (createdAt d w.drv) ∧
      deleteArgs seg = [] ∧
      seg.length = 2 * (i + 1) ∧
      (∀ j, j ≤ i → (ObjGenDelOps.Gen d count names w).2.1 j = createdAt d w.drv j) ∧
      (∀ k, i < k → (ObjGenDelOps.Gen d count names w).2.1 k = names k) ∧
      (ObjGenDelOps.Gen d count names w).2.2.drv =
        (d.GetError (d.CreateProgram (createRounds d i w.drv)).2).2 := by
  obtain ⟨hr, seg, hl, hc, hdel, hlen, hv, hf, hfin⟩ :=
    Gen_loop_raises d i count.toNat 0 names w (Int.lt_toNat.mpr hi) hclear hset
  refine ⟨hr, seg, hl, hc, hdel, hlen, ?_, ?_, hfin⟩
  · intro j hj
    have := hv j hj
    simpa using this
  · intro k hk
    exact hf k (Or.inr (by omega))

/-- Witness of C11: on the limited reference driver started with name 2,
`Gen(4, names)` finds the error state set after the call with index 1; it
raises with `names[0] = 2`, `names[1] = 0` (the result of the failing call)
and `names[2]`, `names[3]` as they were. -/
theorem Gen_raises_at_first_error_witness :
    (raised (ObjGenDelOps.Gen limitedDriver 4 (fun _ => 9) ⟨⟨2, 0, 0, 0⟩, []⟩).1 = true ∧
      ∃ seg, (ObjGenDelOps.Gen limitedDriver 4 (fun _ => 9) ⟨⟨2, 0, 0, 0⟩, []⟩).2.2.log =
          [] ++ seg ∧
        createRets seg = (List.range (1 + 1)).map (createdAt limitedDriver ⟨2, 0, 0, 0⟩) ∧
        deleteArgs seg = [] ∧
        seg.length = 2 * (1 + 1) ∧
        (∀ j, j ≤ 1 →
          (ObjGenDelOps.Gen limitedDriver 4 (fun _ => 9) ⟨⟨2, 0, 0, 0⟩, []⟩).2.1 j =
            createdAt limitedDriver ⟨2, 0, 0, 0⟩ j) ∧
        (∀ k, 1 < k →
          (ObjGenDelOps.Gen limitedDriver 4 (fun _ => 9) ⟨⟨2, 0, 0, 0⟩, []⟩).2.1 k = 9) ∧
        (ObjGenDelOps.Gen limitedDriver 4 (fun _ => 9) ⟨⟨2, 0, 0, 0⟩, []⟩).2.2.drv =
          (limitedDriver.GetError (limitedDriver.CreateProgram
            (createRounds limitedDriver 1 ⟨2, 0, 0, 0⟩)).2).2) ∧
    (ObjGenDelOps.Gen limitedDriver 4 (fun _ => 9) ⟨⟨2, 0, 0, 0⟩, []⟩).2.1 0 = 2 ∧
    (ObjGenDelOps.Gen limitedDriver 4 (fun _ => 9) ⟨⟨2, 0, 0, 0⟩, []⟩).2.1 1 = 0 ∧
    (ObjGenDelOps.Gen limitedDriver 4 (fun _ => 9) ⟨⟨2, 0, 0, 0⟩, []⟩).2.1 2 = 9 ∧
    createRets (ObjGenDelOps.Gen limitedDriver 4 (fun _ => 9) ⟨⟨2, 0, 0, 0⟩, []⟩).2.2.log =
      [2, 0] :=
  ⟨Gen_raises_at_first_error limitedDriver 4 (fun _ => 9) ⟨⟨2, 0, 0, 0⟩, []⟩ 1 (by decide)
      (by decide) (by decide),
    by decide, by decide, by decide, by decide⟩

end oglplus
